import Mathlib

/-! hazetunnel: fingerprint resolver, authentication gate and request pipeline.

A shallow embedding of `hazetunnel/profiles.go`, `hazetunnel/proxy.go` and
`hazetunnel/http.go`.

Conventions of the embedding.

* A Go `string` is a Lean `String`; every character stands for one byte.  The
  separators the program looks for (`.`, `:`, the prefix `Basic `) are ASCII, so
  byte offsets and character offsets agree wherever the program slices.
* A Go `map` is an association list read by `GoMap.index` (first match).  A
  `range` over a map walks the list; the list order plays the role of the
  enumeration order Go picks.
* A run-time panic (index or slice out of range, failed type assertion) is the
  `none` of `Option`; a Go `error` return is the `error` of `Except`.
* Log output (`ctx.Logf`, `ctx.Warnf`) is not modelled.
-/

deriving instance DecidableEq for Except

namespace Hazetunnel

/-! ## Go maps as association lists -/

namespace GoMap

/-- Map read `m[k]` with the comma-ok result: `none` when the key is absent. -/
def index {κ ν : Type} [DecidableEq κ] : List (κ × ν) → κ → Option ν
  | [], _ => none
  | (k', v) :: rest, k => if k' = k then some v else index rest k

/-- The keys a `range` over the map visits, in the order of the visit. -/
def keys {κ ν : Type} (m : List (κ × ν)) : List κ := m.map Prod.fst

/-- Map write `m[k] = v`: the old binding of `k`, if any, is replaced. -/
def set {κ ν : Type} [DecidableEq κ] (m : List (κ × ν)) (k : κ) (v : ν) : List (κ × ν) :=
  (k, v) :: m.filter (fun kv => !decide (kv.1 = k))

end GoMap

/-! ## The pieces of `strings` and `strconv` the program calls -/

/-- Split a character list at every occurrence of a one-character separator. -/
def splitChars (sep : Char) : List Char → List (List Char)
  | [] => [[]]
  | c :: cs =>
    if c = sep then [] :: splitChars sep cs
    else
      match splitChars sep cs with
      | [] => [[c]]
      | p :: ps => (c :: p) :: ps

/-- Go `strings.Split(s, sep)` for a one-byte separator. -/
def Split (s : String) (sep : Char) : List String :=
  (splitChars sep s.data).map String.mk

/-- Go `strings.SplitN(s, sep, 2)` for a one-byte separator: at most two pieces,
the second being the unsplit remainder after the first separator. -/
def SplitN2 (s : String) (sep : Char) : List String :=
  match s.data.dropWhile (fun c => !decide (c = sep)) with
  | [] => [s]
  | _ :: rest => [String.mk (s.data.takeWhile (fun c => !decide (c = sep))), String.mk rest]

/-- Go `strings.HasPrefix`. -/
def HasPrefix (s pre : String) : Bool := pre.data.isPrefixOf s.data

/-- Go slice expression `s[i:]`: panics when `i` exceeds the length. -/
def sliceFrom (s : String) (i : Nat) : Option String :=
  if i ≤ s.data.length then some (String.mk (s.data.drop i)) else none

/-- Value of a decimal digit, `none` for any other character. -/
def digitVal (c : Char) : Option Nat :=
  if 48 ≤ c.toNat ∧ c.toNat ≤ 57 then some (c.toNat - 48) else none

/-- Base-10 value of a run of digits read left to right from accumulator `acc`;
`none` as soon as a non-digit is met. -/
def parseDigits : List Char → Nat → Option Nat
  | [], acc => some acc
  | c :: cs, acc =>
    match digitVal c with
    | none => none
    | some d => parseDigits cs (acc * 10 + d)

/-- The error of `strconv.Atoi`; it remembers the text that failed to parse.
Which of `ErrSyntax` and `ErrRange` it wraps is not modelled: `utlsVersion`
only prints it. -/
structure NumError where
  Num : String
  deriving DecidableEq, Repr

/-- Go `strconv.Atoi` on a 64-bit platform: an optional sign, then one or more
decimal digits, the value lying in `[-2^63, 2^63 - 1]`. -/
def Atoi (s : String) : Except NumError Int :=
  match s.data with
  | [] => .error ⟨s⟩
  | c :: cs =>
    let neg : Bool := decide (c = '-')
    let ds : List Char := if c = '-' ∨ c = '+' then cs else c :: cs
    match ds with
    | [] => .error ⟨s⟩
    | d :: ds' =>
      match parseDigits (d :: ds') 0 with
      | none => .error ⟨s⟩
      | some n =>
        if neg then
          if n ≤ 2 ^ 63 then .ok (-(n : Int)) else .error ⟨s⟩
        else
          if n < 2 ^ 63 then .ok (n : Int) else .error ⟨s⟩

/-! ## profiles.go -/

/-- The type of `utlsDict`: browser family ↦ (minimum major version ↦ token). -/
abbrev Catalog := List (String × List (Int × String))

/-- The catalog `utlsDict` of profiles.go, lines 14-70, in source order. -/
def utlsDict : Catalog :=
  [ ("Firefox",
      [(-1, "120"), (55, "55"), (56, "56"), (63, "63"), (65, "65"), (99, "99"),
       (102, "102"), (105, "105"), (120, "120")]),
    ("Chrome",
      [(-1, "133"), (58, "58"), (62, "62"), (70, "70"), (72, "72"), (83, "83"),
       (87, "87"), (96, "96"), (100, "100"), (102, "102"), (106, "106"),
       (112, "112_PSK"), (114, "114_PSK"), (115, "115_PQ"), (120, "120"),
       (131, "131"), (133, "133")]),
    ("iOS", [(-1, "14"), (11, "111"), (12, "12.1"), (13, "13"), (14, "14")]),
    ("Android", [(-1, "11")]),
    ("Edge", [(-1, "85"), (85, "85")]),
    ("Safari", [(-1, "16.0")]),
    ("360Browser", [(-1, "7.5")]),
    ("QQBrowser", [(-1, "11.1")]) ]

/-- The three `fmt.Errorf` values `utlsVersion` can return. -/
inductive UtlsError where
  | parseMajor (err : NumError)
  | noValue (browserName browserVersion : String)
  | notFound (browserName : String)
  deriving DecidableEq, Repr

/-- One pass of the body of the selection loop (profiles.go, lines 93-95). -/
def selectStep (majorVersion : Int) (selectedVersion version : Int) : Int :=
  if version ≤ majorVersion ∧ version > selectedVersion then version else selectedVersion

/-- The selection loop (profiles.go, lines 91-96): `selectedVersion` starts at
`-1` and the keys are visited in the given order. -/
def selectVersion (majorVersion : Int) (keys : List Int) : Int :=
  keys.foldl (selectStep majorVersion) (-1)

/-- The function `utlsVersion` (profiles.go, lines 81-105) over an arbitrary
catalog. -/
def utlsVersionIn (dict : Catalog) (browserName browserVersion : String) :
    Option (Except UtlsError String) :=
  match GoMap.index dict browserName with
  | some versions =>
    match (Split browserVersion '.')[0]? with
    | none => none
    | some majorVersionStr =>
      match Atoi majorVersionStr with
      | .error err => some (.error (.parseMajor err))
      | .ok majorVersion =>
        let selectedVersion := selectVersion majorVersion (GoMap.keys versions)
        match GoMap.index versions selectedVersion with
        | some utls => some (.ok utls)
        | none => some (.error (.noValue browserName browserVersion))
  | none => some (.error (.notFound browserName))

/-- The function `utlsVersion` of profiles.go, reading the global `utlsDict`. -/
def utlsVersion (browserName browserVersion : String) : Option (Except UtlsError String) :=
  utlsVersionIn utlsDict browserName browserVersion

/-- The result of `useragent.Parse`, as far as the program reads it. -/
structure UserAgent where
  Name : String
  Version : String
  deriving DecidableEq, Repr

/-- The function `uagentToUtls` (profiles.go, lines 72-79); `parse` is the
external `useragent.Parse`. -/
def uagentToUtls (parse : String → UserAgent) (uagent : String) :
    Option (Except UtlsError (String × String)) :=
  let ua := parse uagent
  match utlsVersion ua.Name ua.Version with
  | none => none
  | some (.error err) => some (.error err)
  | some (.ok utlsVersion) => some (.ok (ua.Name, utlsVersion))

/-- The function `GetSupportedBrowsers` (profiles.go, lines 107-114) over an
arbitrary catalog: every family the `range` visits is appended. -/
def GetSupportedBrowsersIn (dict : Catalog) : List String :=
  dict.foldl (fun browsers fam => browsers ++ [fam.1]) []

/-- The function `GetSupportedBrowsers` of profiles.go, reading `utlsDict`. -/
def GetSupportedBrowsers : List String := GetSupportedBrowsersIn utlsDict

/-- The function `GetSupportedVersions` (profiles.go, lines 116-128) over an
arbitrary catalog.  The result is a slice: `none` is the `nil` slice, `some []`
the empty slice that `make` allocated. -/
def GetSupportedVersionsIn (dict : Catalog) (browserName : String) : Option (List Int) :=
  match GoMap.index dict browserName with
  | some versions =>
    some (versions.foldl
      (fun versionList kv => if kv.1 ≠ -1 then versionList ++ [kv.1] else versionList) [])
  | none => none

/-- The function `GetSupportedVersions` of profiles.go, reading `utlsDict`. -/
def GetSupportedVersions (browserName : String) : Option (List Int) :=
  GetSupportedVersionsIn utlsDict browserName

/-- The family of the specification's floor-selection example: versions
`58`, `62`, `70` and a sentinel default with the token of `58`. -/
def sampleFamily : List (Int × String) :=
  [(-1, "58"), (58, "58"), (62, "62"), (70, "70")]

/-- A catalog holding `sampleFamily` under the name `Sample`. -/
def sampleCatalog : Catalog := [("Sample", sampleFamily)]

/-! ## encoding/base64 -/

/-- Value of a character in the standard base64 alphabet
(`A`-`Z`, `a`-`z`, `0`-`9`, `+`, `/`); `none` for any other character. -/
def b64Value (c : Char) : Option Nat :=
  if 65 ≤ c.toNat ∧ c.toNat ≤ 90 then some (c.toNat - 65)
  else if 97 ≤ c.toNat ∧ c.toNat ≤ 122 then some (c.toNat - 97 + 26)
  else if 48 ≤ c.toNat ∧ c.toNat ≤ 57 then some (c.toNat - 48 + 52)
  else if c.toNat = 43 then some 62
  else if c.toNat = 47 then some 63
  else none

/-- The three bytes packed in four 6-bit values. -/
def quantumBytes (va vb vc vd : Nat) : List Nat :=
  let val := va * 262144 + vb * 4096 + vc * 64 + vd
  [val / 65536 % 256, val / 256 % 256, val % 256]

/-- Decode the input four characters at a time.  Padding (`=`) may only close
the last group, as `xx==` or `xxx=`; a group that is cut short is rejected. -/
def decodeQuanta : List Char → Option (List Nat)
  | [] => some []
  | a :: b :: c :: d :: rest =>
    match b64Value a, b64Value b with
    | some va, some vb =>
      if c = '=' then
        if d = '=' ∧ rest = [] then some ((quantumBytes va vb 0 0).take 1) else none
      else
        match b64Value c with
        | none => none
        | some vc =>
          if d = '=' then
            if rest = [] then some ((quantumBytes va vb vc 0).take 2) else none
          else
            match b64Value d, decodeQuanta rest with
            | some vd, some out => some (quantumBytes va vb vc vd ++ out)
            | _, _ => none
    | _, _ => none
  | _ => none

/-- The error `base64.CorruptInputError`; the offset it carries is not
modelled. -/
inductive CorruptInputError where
  | corrupt
  deriving DecidableEq, Repr

/-- Go `base64.StdEncoding.DecodeString`: carriage returns and line feeds are
skipped, padding is mandatory, and the decoded bytes are returned as a
string. -/
def DecodeString (s : String) : Except CorruptInputError String :=
  match decodeQuanta (s.data.filter (fun c => decide (c ≠ '\n' ∧ c ≠ '\r'))) with
  | none => .error .corrupt
  | some bytes => .ok (String.mk (bytes.map Char.ofNat))

/-! ## The types of net/http, goproxy and utls the handlers touch -/

/-- The type `contextKey` of proxy.go, line 17: a named string type. -/
structure contextKey where
  name : String
  deriving DecidableEq, Repr

/-- proxy.go, line 20. -/
def payloadKey : contextKey := ⟨"payload"⟩

/-- proxy.go, line 21. -/
def authKey : contextKey := ⟨"authenticated"⟩

/-- A value of type `interface{}`, as far as the program stores any. -/
inductive AnyValue where
  | bool (b : Bool)
  | str (s : String)
  deriving DecidableEq, Repr

/-- Go `http.Header`, a `map[string][]string`. -/
abbrev HTTPHeader := List (String × List String)

/-- Map read `h[key]` of a header: `nil` (the empty list) when absent. -/
def HTTPHeader.values (h : HTTPHeader) (key : String) : List String :=
  match GoMap.index h key with
  | some vs => vs
  | none => []

/-- Go `http.Header.Get` for a key already in canonical form: the first value,
or the empty string when there is none. -/
def HTTPHeader.Get (h : HTTPHeader) (key : String) : String :=
  match HTTPHeader.values h key with
  | [] => ""
  | v :: _ => v

/-- Go `http.Header.Set` for a key already in canonical form. -/
def HTTPHeader.Set (h : HTTPHeader) (key value : String) : HTTPHeader :=
  GoMap.set h key [value]

/-- An `*http.Request`: its header and the values chained in its context by
`context.WithValue`, most recent first. -/
structure Request where
  Header : HTTPHeader
  Context : List (contextKey × AnyValue)
  deriving DecidableEq, Repr

/-- An `*http.Response` as built by `goproxy.NewResponse`. -/
structure Response where
  Request : Request
  StatusCode : Nat
  Header : HTTPHeader
  Body : String
  deriving DecidableEq, Repr

/-- The constant `goproxy.ContentTypeText`. -/
def ContentTypeText : String := "text/plain"

/-- The constant `http.StatusBadRequest`. -/
def StatusBadRequest : Nat := 400

/-- The constant `http.StatusProxyAuthRequired`. -/
def StatusProxyAuthRequired : Nat := 407

/-- The function `goproxy.NewResponse`: the response for `r` with the given
content type, status code and body. -/
def NewResponse (r : Request) (contentType : String) (status : Nat) (body : String) :
    Response :=
  { Request := r
    StatusCode := status
    Header := [("Content-Type", [contentType])]
    Body := body }

/-- A parsed `*url.URL`. -/
structure URL where
  Scheme : String
  Host : String
  Path : String
  deriving DecidableEq, Repr

/-- A `utls.ClientHelloID`. -/
structure ClientHelloID where
  Client : String
  Version : String
  deriving DecidableEq, Repr

/-- The fields of `utls.Config` the handler sets. -/
structure UTLSConfig where
  InsecureSkipVerify : Bool
  OmitEmptyPsk : Bool
  deriving DecidableEq, Repr

/-- The round tripper of `sf.NewUTLSHTTPRoundTripperWithProxy`, recorded by the
arguments it was built from (the backdrop transport is always
`http.DefaultTransport`). -/
structure RoundTripper where
  clientHelloId : ClientHelloID
  config : UTLSConfig
  removeSNI : Bool
  proxy : Option URL
  deriving DecidableEq, Repr

/-- The constructor `sf.NewUTLSHTTPRoundTripperWithProxy`. -/
def NewUTLSHTTPRoundTripperWithProxy (clientHelloId : ClientHelloID) (config : UTLSConfig)
    (removeSNI : Bool) (proxy : Option URL) : RoundTripper :=
  { clientHelloId := clientHelloId, config := config, removeSNI := removeSNI, proxy := proxy }

/-- The field `UserData` of a `goproxy.ProxyCtx`, an `interface{}`: `nil`, a
`map[contextKey]interface{}`, or a value of some other type. -/
inductive UserData where
  | nil
  | ctxMap (m : List (contextKey × AnyValue))
  | other (v : AnyValue)
  deriving DecidableEq, Repr

/-- A `*goproxy.ProxyCtx`, as far as the handlers read or write it. -/
structure ProxyCtx where
  Req : Request
  Resp : Option Response
  RoundTripper : Option RoundTripper
  UserData : UserData
  deriving DecidableEq, Repr

/-- The values of `*goproxy.ConnectAction` a CONNECT handler may return. -/
inductive ConnectAction where
  | OkConnect
  | MitmConnect
  | RejectConnect
  deriving DecidableEq, Repr

/-- The configuration `ProxySetup`, with the fields proxy.go and main.go use. -/
structure ProxySetup where
  Addr : String
  Port : String
  UserAgent : String
  Payload : String
  UpstreamProxy : String
  Username : String
  Password : String
  Id : String
  deriving DecidableEq, Repr

/-- An error of identity resolution: one of `utlsVersion`, or any other. -/
inductive ResolveError where
  | utls (err : UtlsError)
  | other (msg : String)
  deriving DecidableEq, Repr

/-- The error of `url.Parse`. -/
structure URLError where
  msg : String
  deriving DecidableEq, Repr

/-- What the request handler calls and the sources do not define: the helper
`getClientHelloID`, the library function `url.Parse` and the library constant
`utls.HelloChrome_Auto`. -/
structure Externals where
  getClientHelloID : String → Option (Except ResolveError ClientHelloID)
  urlParse : String → Except URLError URL
  HelloChrome_Auto : ClientHelloID

/-- Modelled from the spec: the helper `getClientHelloID`, whose definition is
not among the sources.  Sections 4.1 and 4.4 (step 3): the identity
`(browserFamily, versionToken)` is resolved from the User-Agent by the
fingerprint resolver, here `uagentToUtls`, and resolution fails when the
resolver fails. -/
def getClientHelloID (parse : String → UserAgent) (ua : String) :
    Option (Except ResolveError ClientHelloID) :=
  match uagentToUtls parse ua with
  | none => none
  | some (.error err) => some (.error (.utls err))
  | some (.ok (browserName, utlsVersion)) => some (.ok ⟨browserName, utlsVersion⟩)

/-! ## http.go -/

/-- The function `invalidUpstreamProxyResponse` (http.go, lines 9-16). -/
def invalidUpstreamProxyResponse (req : Request) (upstreamProxy : String) : Response :=
  NewResponse req ContentTypeText StatusBadRequest
    ("HAZETUNNEL ERROR: Invalid upstream proxy: " ++ upstreamProxy)

/-- The function `missingParameterResponse` (http.go, lines 18-25). -/
def missingParameterResponse (req : Request) (header : String) : Response :=
  NewResponse req ContentTypeText StatusBadRequest
    ("HAZETUNNEL ERROR: Missing header: " ++ header)

/-- The function `proxyAuthRequiredResponse` (http.go, lines 27-35). -/
def proxyAuthRequiredResponse (req : Request) : Response :=
  let resp := NewResponse req ContentTypeText StatusProxyAuthRequired
    "HAZETUNNEL ERROR: Proxy authentication required"
  { resp with
    Header := HTTPHeader.Set resp.Header "Proxy-Authenticate" "Basic realm=\"Hazetunnel Proxy\"" }

/-! ## proxy.go -/

/-- The function `validateProxyAuth` (proxy.go, lines 35-66). -/
def validateProxyAuth (req : Request) (username password : String) : Option Bool :=
  if username = "" ∧ password = "" then some true
  else
    let authHeader := HTTPHeader.Get req.Header "Proxy-Authorization"
    if authHeader = "" then some false
    else if HasPrefix authHeader "Basic " = false then some false
    else
      match sliceFrom authHeader 6 with
      | none => none
      | some encoded =>
        match DecodeString encoded with
        | .error _ => some false
        | .ok credentials =>
          let parts := SplitN2 credentials ':'
          if parts.length ≠ 2 then some false
          else
            match parts[0]?, parts[1]? with
            | some user, some pass => some (decide (user = username) && decide (pass = password))
            | _, _ => none

/-- The CONNECT handler registered by `setupProxy` (proxy.go, lines 97-108):
the action, the host and the proxy context after the call. -/
def handleConnect (Flags : ProxySetup) (host : String) (ctx : ProxyCtx) :
    Option (ConnectAction × String × ProxyCtx) :=
  match validateProxyAuth ctx.Req Flags.Username Flags.Password with
  | none => none
  | some false =>
    some (.RejectConnect, host, { ctx with Resp := some (proxyAuthRequiredResponse ctx.Req) })
  | some true =>
    some (.MitmConnect, host, { ctx with UserData := .ctxMap [(authKey, .bool true)] })

/-- The flag `isAuthenticated` of the request handler (proxy.go, lines 114-122);
the type assertion `auth.(bool)` panics on a value that is not a `bool`. -/
def isAuthenticated (ctx : ProxyCtx) : Option Bool :=
  match ctx.UserData with
  | .nil => some false
  | .other _ => some false
  | .ctxMap userData =>
    match GoMap.index userData authKey with
    | none => some false
    | some (.bool auth) => some auth
    | some (.str _) => none

/-- What the request handler returns and leaves behind: the returned request,
the early response (`nil` is `none`) and the proxy context after the call. -/
structure HandlerResult where
  req : Request
  resp : Option Response
  ctx : ProxyCtx
  deriving DecidableEq, Repr

/-- The identity the handler hands to the transport (proxy.go, lines 139-145):
the resolved one, or `utls.HelloChrome_Auto` when resolution returned an
error. -/
def clientHelloIdOrDefault (ext : Externals) (resolved : Except ResolveError ClientHelloID) :
    ClientHelloID :=
  match resolved with
  | .ok clientHelloId => clientHelloId
  | .error _ => ext.HelloChrome_Auto

/-- The store of the payload (proxy.go, lines 147-154): `ctx.Req` becomes a copy
of `req` whose context chains `payloadKey ↦ Flags.Payload` onto the context of
the old `ctx.Req`. -/
def storePayload (Flags : ProxySetup) (req : Request) (ctx : ProxyCtx) : ProxyCtx :=
  { ctx with
    Req := { req with Context := (payloadKey, .str Flags.Payload) :: ctx.Req.Context } }

/-- The last step of the handler (proxy.go, lines 165-178): build the round
tripper, bind it to the context and return the request with no response. -/
def bindRoundTripper (clientHelloId : ClientHelloID) (upstreamProxy : Option URL)
    (req : Request) (ctx : ProxyCtx) : HandlerResult :=
  { req := req
    resp := none
    ctx :=
      { ctx with
        RoundTripper :=
          some (NewUTLSHTTPRoundTripperWithProxy clientHelloId
            { InsecureSkipVerify := true, OmitEmptyPsk := true } false upstreamProxy) } }

/-- The request handler from the read of the effective User-Agent on
(proxy.go, lines 137-178). -/
def resolveAndBind (ext : Externals) (Flags : ProxySetup) (req : Request) (ctx : ProxyCtx) :
    Option HandlerResult :=
  match (HTTPHeader.values req.Header "User-Agent")[0]? with
  | none => none
  | some ua =>
    match ext.getClientHelloID ua with
    | none => none
    | some resolved =>
      let clientHelloId := clientHelloIdOrDefault ext resolved
      let ctx1 := storePayload Flags req ctx
      if Flags.UpstreamProxy ≠ "" then
        match ext.urlParse Flags.UpstreamProxy with
        | .error _ =>
          some
            { req := req
              resp := some (invalidUpstreamProxyResponse req Flags.UpstreamProxy)
              ctx := ctx1 }
        | .ok proxyUrl => some (bindRoundTripper clientHelloId (some proxyUrl) req ctx1)
      else some (bindRoundTripper clientHelloId none req ctx1)

/-- The request handler registered by `setupProxy` (proxy.go, lines 110-180).
In `!isAuthenticated && !validateProxyAuth(...)` the call is evaluated only when
`isAuthenticated` is false. -/
def handleRequest (ext : Externals) (Flags : ProxySetup) (req : Request) (ctx : ProxyCtx) :
    Option HandlerResult :=
  match isAuthenticated ctx with
  | none => none
  | some auth =>
    match (if auth then some true
      else validateProxyAuth req Flags.Username Flags.Password) with
    | none => none
    | some false => some { req := req, resp := some (proxyAuthRequiredResponse req), ctx := ctx }
    | some true =>
      if Flags.UserAgent ≠ "" then
        resolveAndBind ext Flags
          { req with Header := GoMap.set req.Header "User-Agent" [Flags.UserAgent] } ctx
      else if (HTTPHeader.values req.Header "User-Agent").length = 0 then
        some { req := req, resp := some (missingParameterResponse req "User-Agent"), ctx := ctx }
      else resolveAndBind ext Flags req ctx

/-! ## proxy.go: the instance registry -/

/-- The global `Config`, with the fields main.go sets. -/
structure ConfigT where
  Cert : String
  Key : String
  Verbose : Bool
  deriving DecidableEq, Repr

/-- A `*goproxy.ProxyHttpServer` once `setupProxy` has run on it: its verbosity
and the configuration its handlers close over (`handleConnect Flags`,
`handleRequest ext Flags`). -/
structure ProxyHttpServer where
  Verbose : Bool
  Flags : ProxySetup
  deriving DecidableEq, Repr

/-- An `*http.Server` with the two fields `initServer` sets. -/
structure HTTPServer where
  Addr : String
  Handler : ProxyHttpServer
  deriving DecidableEq, Repr

/-- A `context.CancelFunc`, identified by the serial number of the context that
`context.WithCancel` created with it. -/
structure CancelFunc where
  ctxId : Nat
  deriving DecidableEq, Repr

/-- The type `ProxyInstance` (proxy.go, lines 24-27). -/
structure ProxyInstance where
  Server : HTTPServer
  Cancel : CancelFunc
  deriving DecidableEq, Repr

/-- A call that acts outside the registry: the CA loader, a cancel function, the
stop of a server. -/
inductive Effect where
  | loadCA
  | cancel (f : CancelFunc)
  | serverClosed (server : HTTPServer)
  deriving DecidableEq, Repr

/-- The package-level state `initServer` works on: `Config`, the registry
`proxyInstanceMap` (proxy.go, line 32), the number of contexts created so far,
and the calls made so far that act outside the registry, oldest first.  The
mutex `serverMux` is held for the whole call and is not modelled. -/
structure Globals where
  Config : ConfigT
  proxyInstanceMap : List (String × ProxyInstance)
  contexts : Nat
  effects : List Effect
  deriving DecidableEq, Repr

/-- The function `initServer` (proxy.go, lines 68-93): the server it returns and
the state it leaves.  The call of `loadCA`, whose body is not among the sources,
is recorded as an effect. -/
def initServer (Flags : ProxySetup) (g : Globals) : HTTPServer × Globals :=
  let effects := g.effects ++ [Effect.loadCA]
  let proxy : ProxyHttpServer := { Verbose := g.Config.Verbose, Flags := Flags }
  let server : HTTPServer := { Addr := Flags.Addr ++ ":" ++ Flags.Port, Handler := proxy }
  let cancel : CancelFunc := { ctxId := g.contexts }
  (server,
    { g with
      effects := effects
      contexts := g.contexts + 1
      proxyInstanceMap :=
        GoMap.set g.proxyInstanceMap Flags.Id { Server := server, Cancel := cancel } })

/-- The state of a process that has started no instance yet. -/
def initialGlobals : Globals :=
  { Config := { Cert := "cert.pem", Key := "key.pem", Verbose := false }
    proxyInstanceMap := []
    contexts := 0
    effects := [] }

/-! ## Specification-side notions for the instance registry -/

/-- The resources of an instance have been released: its cancel function has
been invoked, or its server has been stopped. -/
def Released (g : Globals) (inst : ProxyInstance) : Prop :=
  Effect.cancel inst.Cancel ∈ g.effects ∨ Effect.serverClosed inst.Server ∈ g.effects

instance (g : Globals) (inst : ProxyInstance) : Decidable (Released g inst) := by
  unfold Released; infer_instance

/-! ## Specification-side notions for the catalog -/

/-- The text of `s` before the first occurrence of `sep` (all of `s` when `sep`
does not occur): the specification's "leading component". -/
def textBefore (sep : Char) (s : String) : String :=
  String.mk (s.data.takeWhile (fun c => !decide (c = sep)))

/-- The specification's floor selection: `k` is the largest non-sentinel key of
the family that is at most `m`, or the sentinel `-1` when no non-sentinel key
is at most `m`. -/
def IsFloorKey (versions : List (Int × String)) (m k : Int) : Prop :=
  (k ∈ GoMap.keys versions ∧ k ≠ -1 ∧ k ≤ m ∧
      ∀ k' ∈ GoMap.keys versions, k' ≠ -1 → k' ≤ m → k' ≤ k) ∨
  (k = -1 ∧ ∀ k' ∈ GoMap.keys versions, k' ≠ -1 → ¬ k' ≤ m)

/-- The catalog invariant on one family: exactly one sentinel key `-1`, every
other key non-negative. -/
def FamilyInvariant (versions : List (Int × String)) : Prop :=
  (GoMap.keys versions).count (-1) = 1 ∧ ∀ k ∈ GoMap.keys versions, k ≠ -1 → 0 ≤ k

instance : DecidablePred FamilyInvariant := fun versions => by
  unfold FamilyInvariant; infer_instance

/-- The catalog invariant: every family satisfies `FamilyInvariant`. -/
def CatalogInvariant (dict : Catalog) : Prop :=
  ∀ fam ∈ dict, FamilyInvariant fam.2

instance : DecidablePred CatalogInvariant := fun dict => by
  unfold CatalogInvariant; infer_instance

/-- A request whose only header is `Proxy-Authorization` with the given values. -/
def requestWithProxyAuth (values : List String) : Request :=
  { Header := [("Proxy-Authorization", values)], Context := [] }

/-! ## Stand-ins for the libraries, to run the handlers on concrete inputs -/

/-- A stand-in for `useragent.Parse`: it reads a User-Agent of the plain form
`Name/Version`. -/
def sampleParse (uagent : String) : UserAgent :=
  match SplitN2 uagent '/' with
  | [name, version] => { Name := name, Version := version }
  | _ => { Name := uagent, Version := "" }

/-- The scan of `getScheme` in net/url: letters, and after the first character
digits, `+`, `-` and `.`, up to a `:`; the result is the scheme and the rest, or
no scheme and the whole text. -/
def scanScheme (raw : List Char) : List Char → List Char → Except URLError (List Char × List Char)
  | _, [] => .ok ([], raw)
  | seen, c :: cs =>
    if c.isAlpha then scanScheme raw (seen ++ [c]) cs
    else if c.isDigit ∨ c = '+' ∨ c = '-' ∨ c = '.' then
      if seen = [] then .ok ([], raw) else scanScheme raw (seen ++ [c]) cs
    else if c = ':' then
      if seen = [] then .error ⟨"missing protocol scheme"⟩ else .ok (seen, cs)
    else .ok ([], raw)

/-- A stand-in for `url.Parse` that follows two of its rules: the scheme scan,
and the rejection of a relative reference whose first path segment contains a
colon. -/
def sampleUrlParse (rawURL : String) : Except URLError URL :=
  match scanScheme rawURL.data [] rawURL.data with
  | .error err => .error err
  | .ok (scheme, rest) =>
    if scheme = [] ∧ ¬ (['/'].isPrefixOf rest) ∧
        ':' ∈ rest.takeWhile (fun c => !decide (c = '/')) then
      .error ⟨"first path segment in URL cannot contain colon"⟩
    else .ok { Scheme := String.mk scheme, Host := "", Path := String.mk rest }

/-- Externals for concrete runs: the specification's resolver over
`sampleParse`, the stand-in URL parser, and the Chrome 133 identity as
`HelloChrome_Auto`. -/
def sampleExternals : Externals :=
  { getClientHelloID := getClientHelloID sampleParse
    urlParse := sampleUrlParse
    HelloChrome_Auto := { Client := "Chrome", Version := "133" } }

/-- A proxy context as it is before any handler has run. -/
def freshCtx (req : Request) : ProxyCtx :=
  { Req := req, Resp := none, RoundTripper := none, UserData := .nil }

/-- A configuration with every option empty, listening on port 8080 as `cli`. -/
def defaultSetup : ProxySetup :=
  { Addr := "", Port := "8080", UserAgent := "", Payload := "", UpstreamProxy := "",
    Username := "", Password := "", Id := "cli" }

/-- A request whose only header is `User-Agent` with the given values. -/
def requestWithUserAgent (values : List String) : Request :=
  { Header := [("User-Agent", values)], Context := [] }

/-- The setup of an instance with id `a` on the default port. -/
def firstSetup : ProxySetup := { defaultSetup with Id := "a" }

/-- The setup of another instance with the same id `a`, on port 9090. -/
def secondSetup : ProxySetup := { defaultSetup with Id := "a", Port := "9090" }

/-- The state after `firstSetup` has been started in a fresh process. -/
def afterFirstStart : Globals := (initServer firstSetup initialGlobals).2

/-- The state after `secondSetup` has been started next. -/
def afterSecondStart : Globals := (initServer secondSetup afterFirstStart).2

/-- The instance the first start registers. -/
def firstInstance : ProxyInstance :=
  { Server := { Addr := ":8080", Handler := { Verbose := false, Flags := firstSetup } }
    Cancel := { ctxId := 0 } }

/-! ## Specification-side notions for the request pipeline -/

/-- Step 1 of the pipeline passes: the tunnel is already authenticated, or it is
not and the request itself passes the authentication gate. -/
def PassesAuthentication (Flags : ProxySetup) (req : Request) (ctx : ProxyCtx) : Prop :=
  isAuthenticated ctx = some true ∨
    (isAuthenticated ctx = some false ∧
      validateProxyAuth req Flags.Username Flags.Password = some true)

/-- Step 2 of the pipeline, the effective User-Agent: the configured override
when there is one, else the first value the client supplied, if any. -/
def effectiveUserAgent (Flags : ProxySetup) (req : Request) : Option String :=
  if Flags.UserAgent ≠ "" then some Flags.UserAgent
  else (HTTPHeader.values req.Header "User-Agent")[0]?

/-- The request the handler goes on with after step 2: the User-Agent header is
overwritten when an override is configured. -/
def effectiveRequest (Flags : ProxySetup) (req : Request) : Request :=
  if Flags.UserAgent ≠ "" then
    { req with Header := GoMap.set req.Header "User-Agent" [Flags.UserAgent] }
  else req

/-! ## Specification-side notions for the authentication gate -/

/-- The specification's accepted request: it carries a `Proxy-Authorization`
header of the form `Basic ` followed by standard base64 that decodes to exactly
`username ++ ":" ++ password`. -/
def CarriesBasicCredentials (req : Request) (username password : String) : Prop :=
  ∃ encoded : String,
    HTTPHeader.Get req.Header "Proxy-Authorization" = "Basic " ++ encoded ∧
    DecodeString encoded = .ok (username ++ ":" ++ password)

/-! ## Lemmas: maps and strings -/

theorem GoMap.index_mem {κ ν : Type} [DecidableEq κ] (m : List (κ × ν)) (k : κ) (v : ν)
    (h : GoMap.index m k = some v) : (k, v) ∈ m := by
  induction m with
  | nil => simp [GoMap.index] at h
  | cons kv rest ih =>
    obtain ⟨k', v'⟩ := kv
    by_cases hk : k' = k
    · simp [GoMap.index, hk] at h
      simp [hk, h]
    · simp [GoMap.index, hk] at h
      exact List.mem_cons_of_mem _ (ih h)

theorem GoMap.index_of_mem_keys {κ ν : Type} [DecidableEq κ] (m : List (κ × ν)) (k : κ)
    (h : k ∈ GoMap.keys m) : ∃ v, GoMap.index m k = some v := by
  induction m with
  | nil => simp [GoMap.keys] at h
  | cons kv rest ih =>
    obtain ⟨k', v'⟩ := kv
    by_cases hk : k' = k
    · exact ⟨v', by simp [GoMap.index, hk]⟩
    · have hmem : k ∈ GoMap.keys rest := by
        simp only [GoMap.keys, List.map_cons, List.mem_cons] at h
        rcases h with h | h
        · exact absurd h.symm hk
        · exact h
      obtain ⟨v, hv⟩ := ih hmem
      exact ⟨v, by simp [GoMap.index, hk, hv]⟩

theorem GoMap.index_none_iff {κ ν : Type} [DecidableEq κ] (m : List (κ × ν)) (k : κ) :
    GoMap.index m k = none ↔ k ∉ GoMap.keys m := by
  constructor
  · intro h hmem
    obtain ⟨v, hv⟩ := GoMap.index_of_mem_keys m k hmem
    rw [h] at hv
    exact Option.noConfusion hv
  · intro h
    cases hv : GoMap.index m k with
    | none => rfl
    | some v =>
      exact absurd (List.mem_map_of_mem Prod.fst (GoMap.index_mem m k v hv)) h

theorem splitChars_ne_nil (sep : Char) (l : List Char) : splitChars sep l ≠ [] := by
  cases l with
  | nil => simp [splitChars]
  | cons c cs =>
    by_cases hc : c = sep
    · simp [splitChars, hc]
    · simp only [splitChars, hc, if_false]
      split <;> simp

theorem splitChars_head (sep : Char) (l : List Char) :
    (splitChars sep l)[0]? = some (l.takeWhile (fun c => !decide (c = sep))) := by
  induction l with
  | nil => simp [splitChars]
  | cons c cs ih =>
    by_cases hc : c = sep
    · simp [splitChars, hc]
    · simp only [splitChars, hc, if_false]
      cases hs : splitChars sep cs with
      | nil => exact absurd hs (splitChars_ne_nil sep cs)
      | cons p ps =>
        rw [hs] at ih
        simp at ih
        simp [hc, ih]

/-- The first piece of `strings.Split` always exists and is the text before the
first separator. -/
theorem Split_index_zero (s : String) (sep : Char) :
    (Split s sep)[0]? = some (textBefore sep s) := by
  simp [Split, textBefore, List.getElem?_map, splitChars_head]

theorem takeWhile_dropWhile_sep (sep : Char) (a b : List Char) (h : sep ∉ a) :
    (a ++ sep :: b).takeWhile (fun c => !decide (c = sep)) = a ∧
      (a ++ sep :: b).dropWhile (fun c => !decide (c = sep)) = sep :: b := by
  induction a with
  | nil => simp
  | cons x xs ih =>
    have hx : x ≠ sep := fun e => h (by simp [e])
    have hxs : sep ∉ xs := fun e => h (List.mem_cons_of_mem _ e)
    obtain ⟨i1, i2⟩ := ih hxs
    simp [List.takeWhile_cons, List.dropWhile_cons, hx, i1, i2]

theorem dropWhile_sep_cases (sep : Char) (l : List Char) :
    (sep ∉ l ∧ l.dropWhile (fun c => !decide (c = sep)) = []) ∨
      (∃ rest, l.dropWhile (fun c => !decide (c = sep)) = sep :: rest ∧
        l = l.takeWhile (fun c => !decide (c = sep)) ++ sep :: rest ∧
        sep ∉ l.takeWhile (fun c => !decide (c = sep))) := by
  induction l with
  | nil => left; simp
  | cons x xs ih =>
    by_cases hx : x = sep
    · right
      subst hx
      exact ⟨xs, by simp, by simp, by simp⟩
    · rcases ih with ⟨h1, h2⟩ | ⟨rest, h1, h2, h3⟩
      · left
        refine ⟨?_, ?_⟩
        · simp only [List.mem_cons, not_or]
          exact ⟨fun e => hx e.symm, h1⟩
        · simp [List.dropWhile_cons, hx, h2]
      · right
        refine ⟨rest, by simp [List.dropWhile_cons, hx, h1], ?_, ?_⟩
        · have ht : (x :: xs).takeWhile (fun c => !decide (c = sep)) =
              x :: xs.takeWhile (fun c => !decide (c = sep)) := by
            simp [List.takeWhile_cons, hx]
          rw [ht, List.cons_append]
          exact congrArg (List.cons x) h2
        · have ht : (x :: xs).takeWhile (fun c => !decide (c = sep)) =
              x :: xs.takeWhile (fun c => !decide (c = sep)) := by
            simp [List.takeWhile_cons, hx]
          rw [ht, List.mem_cons, not_or]
          exact ⟨fun e => hx e.symm, h3⟩

/-- The two shapes of `strings.SplitN(s, sep, 2)`: one piece when the separator
does not occur, else the text before and the text after its first occurrence. -/
theorem SplitN2_cases (s : String) (sep : Char) :
    (sep ∉ s.data ∧ SplitN2 s sep = [s]) ∨
      (∃ a b : String, SplitN2 s sep = [a, b] ∧ s.data = a.data ++ sep :: b.data ∧
        sep ∉ a.data) := by
  rcases dropWhile_sep_cases sep s.data with ⟨h1, h2⟩ | ⟨rest, h1, h2, h3⟩
  · left
    exact ⟨h1, by simp [SplitN2, h2]⟩
  · right
    exact ⟨String.mk (s.data.takeWhile (fun c => !decide (c = sep))), String.mk rest,
      by simp [SplitN2, h1], h2, h3⟩

theorem SplitN2_append (a b : String) (sep : Char) (h : sep ∉ a.data) :
    SplitN2 (String.mk (a.data ++ sep :: b.data)) sep = [a, b] := by
  obtain ⟨h1, h2⟩ := takeWhile_dropWhile_sep sep a.data b.data h
  simp [SplitN2, h1, h2]

theorem HasPrefix_iff (s pre : String) :
    HasPrefix s pre = true ↔ ∃ t : String, s = pre ++ t := by
  unfold HasPrefix
  rw [List.isPrefixOf_iff_prefix]
  constructor
  · rintro ⟨t, ht⟩
    exact ⟨String.mk t, String.ext (by simp [ht])⟩
  · rintro ⟨t, ht⟩
    exact ⟨t.data, by simp [ht]⟩

theorem sliceFrom_append (pre t : String) :
    sliceFrom (pre ++ t) pre.data.length = some t := by
  simp [sliceFrom]

/-! ## Lemmas: the authentication gate -/

theorem credentials_eq_iff (creds a b u p : String)
    (hsplit : creds.data = a.data ++ ':' :: b.data) (ha : ':' ∉ a.data) :
    (a = u ∧ b = p) ↔ (':' ∉ u.data ∧ creds = u ++ ":" ++ p) := by
  constructor
  · rintro ⟨rfl, rfl⟩
    refine ⟨ha, String.ext ?_⟩
    rw [hsplit]
    simp [String.data_append]
  · rintro ⟨hu, hc⟩
    have hdata : creds.data = u.data ++ ':' :: p.data := by
      rw [hc]
      simp [String.data_append]
    obtain ⟨t1, d1⟩ := takeWhile_dropWhile_sep ':' a.data b.data ha
    obtain ⟨t2, d2⟩ := takeWhile_dropWhile_sep ':' u.data p.data hu
    rw [← hsplit] at t1 d1
    rw [← hdata] at t2 d2
    refine ⟨String.ext (t1.symm.trans t2), String.ext ?_⟩
    have := d1.symm.trans d2
    simpa using this

/-- The value of `validateProxyAuth` on a request whose header starts with
`Basic `, when credentials are configured. -/
theorem validateProxyAuth_basic (req : Request) (u p enc : String)
    (hcfg : ¬(u = "" ∧ p = ""))
    (hhdr : HTTPHeader.Get req.Header "Proxy-Authorization" = "Basic " ++ enc) :
    (∀ e, DecodeString enc = .error e → validateProxyAuth req u p = some false) ∧
      (∀ creds, DecodeString enc = .ok creds →
        validateProxyAuth req u p = some (decide (':' ∉ u.data ∧ creds = u ++ ":" ++ p))) := by
  have hne : ("Basic " ++ enc) ≠ "" := by
    intro h
    have := congrArg String.data h
    simp [String.data_append] at this
  have hpre : HasPrefix ("Basic " ++ enc) "Basic " = true := (HasPrefix_iff _ _).2 ⟨enc, rfl⟩
  have hslice : sliceFrom ("Basic " ++ enc) 6 = some enc := sliceFrom_append "Basic " enc
  refine ⟨?_, ?_⟩
  · intro e hd
    unfold validateProxyAuth
    simp only [hcfg, if_false, hhdr, hne, hpre, hslice, hd]
    simp
  · intro creds hd
    unfold validateProxyAuth
    simp only [hcfg, if_false, hhdr, hne, hpre, hslice, hd]
    rcases SplitN2_cases creds ':' with ⟨h1, h2⟩ | ⟨a, b, h2, h3, h4⟩
    · have hno : ¬(':' ∉ u.data ∧ creds = u ++ ":" ++ p) := by
        rintro ⟨_, hc⟩
        apply h1
        rw [hc]
        simp [String.data_append]
      simp [h2, hno]
    · have hiff := credentials_eq_iff creds a b u p h3 h4
      simp only [h2]
      by_cases hab : a = u ∧ b = p
      · have hr := hiff.1 hab
        simp [hab.1, hab.2, hr.1]
        exact hr.2
      · have hr : ¬(':' ∉ u.data ∧ creds = u ++ ":" ++ p) := fun h => hab (hiff.2 h)
        simp only [hr, decide_False]
        simp
        intro h1
        exact fun h2 => hab ⟨h1, h2⟩

/-- The call `validateProxyAuth` always returns a boolean: no slice or index in
it goes out of range. -/
theorem validateProxyAuth_total (req : Request) (u p : String) :
    ∃ b, validateProxyAuth req u p = some b := by
  by_cases hcfg : u = "" ∧ p = ""
  · exact ⟨true, by simp [validateProxyAuth, hcfg]⟩
  · by_cases hpre : HasPrefix (HTTPHeader.Get req.Header "Proxy-Authorization") "Basic " = true
    · obtain ⟨enc, henc⟩ := (HasPrefix_iff _ _).1 hpre
      obtain ⟨herr, hok⟩ := validateProxyAuth_basic req u p enc hcfg henc
      cases hd : DecodeString enc with
      | error e => exact ⟨false, herr e hd⟩
      | ok creds => exact ⟨_, hok creds hd⟩
    · have hpre' : HasPrefix (HTTPHeader.Get req.Header "Proxy-Authorization") "Basic " =
          false := by
        simpa using hpre
      refine ⟨false, ?_⟩
      unfold validateProxyAuth
      simp only [hcfg, if_false, hpre', if_true]
      split <;> rfl

/-! ## Lemmas: the request handler -/

theorem HTTPHeader.values_set (h : HTTPHeader) (key : String) (vs : List String) :
    HTTPHeader.values (GoMap.set h key vs) key = vs := by
  simp [HTTPHeader.values, GoMap.set, GoMap.index]

theorem isAuthenticated_of_connect (ctx : ProxyCtx)
    (hud : ctx.UserData = .ctxMap [(authKey, .bool true)]) : isAuthenticated ctx = some true := by
  simp [isAuthenticated, hud, GoMap.index]

/-- Once step 1 has passed, the handler is its steps 2 to 7. -/
theorem handleRequest_of_passes (ext : Externals) (Flags : ProxySetup) (req : Request)
    (ctx : ProxyCtx) (hpass : PassesAuthentication Flags req ctx) :
    handleRequest ext Flags req ctx =
      if Flags.UserAgent ≠ "" then resolveAndBind ext Flags (effectiveRequest Flags req) ctx
      else if (HTTPHeader.values req.Header "User-Agent").length = 0 then
        some { req := req, resp := some (missingParameterResponse req "User-Agent"), ctx := ctx }
      else resolveAndBind ext Flags req ctx := by
  unfold handleRequest effectiveRequest
  rcases hpass with h | ⟨h1, h2⟩
  · simp only [h, if_true]
    split <;> rfl
  · simp only [h1, h2]
    split <;> simp_all

/-- With an effective User-Agent, the handler after step 1 is `resolveAndBind`
on the effective request, whose first User-Agent value is the effective one. -/
theorem handleRequest_of_effective (ext : Externals) (Flags : ProxySetup) (req : Request)
    (ctx : ProxyCtx) (ua : String) (hpass : PassesAuthentication Flags req ctx)
    (hua : effectiveUserAgent Flags req = some ua) :
    handleRequest ext Flags req ctx = resolveAndBind ext Flags (effectiveRequest Flags req) ctx ∧
      (HTTPHeader.values (effectiveRequest Flags req).Header "User-Agent")[0]? = some ua := by
  rw [handleRequest_of_passes ext Flags req ctx hpass]
  by_cases hov : Flags.UserAgent = ""
  · have heff : effectiveRequest Flags req = req := by simp [effectiveRequest, hov]
    have hua' : (HTTPHeader.values req.Header "User-Agent")[0]? = some ua := by
      simpa [effectiveUserAgent, hov] using hua
    have hlen : (HTTPHeader.values req.Header "User-Agent").length ≠ 0 := by
      intro h0
      have hnil := List.length_eq_zero.mp h0
      rw [hnil] at hua'
      simp at hua'
    rw [heff]
    simp only [hov, ne_eq, not_true_eq_false, if_false, hlen]
    exact ⟨trivial, hua'⟩
  · have hua' : ua = Flags.UserAgent := by
      have : some Flags.UserAgent = some ua := by simpa [effectiveUserAgent, hov] using hua
      exact (Option.some.inj this).symm
    refine ⟨by simp [hov], ?_⟩
    simp [effectiveRequest, hov, HTTPHeader.values_set, hua']

/-- The three ways `resolveAndBind` ends once the User-Agent is read and the
resolver has returned. -/
theorem resolveAndBind_of_resolved (ext : Externals) (Flags : ProxySetup) (req : Request)
    (ctx : ProxyCtx) (ua : String) (resolved : Except ResolveError ClientHelloID)
    (hua : (HTTPHeader.values req.Header "User-Agent")[0]? = some ua)
    (hres : ext.getClientHelloID ua = some resolved) :
    (Flags.UpstreamProxy = "" →
        resolveAndBind ext Flags req ctx =
          some (bindRoundTripper (clientHelloIdOrDefault ext resolved) none req
            (storePayload Flags req ctx))) ∧
    (∀ proxyUrl, Flags.UpstreamProxy ≠ "" → ext.urlParse Flags.UpstreamProxy = .ok proxyUrl →
        resolveAndBind ext Flags req ctx =
          some (bindRoundTripper (clientHelloIdOrDefault ext resolved) (some proxyUrl) req
            (storePayload Flags req ctx))) ∧
    (∀ err, Flags.UpstreamProxy ≠ "" → ext.urlParse Flags.UpstreamProxy = .error err →
        resolveAndBind ext Flags req ctx =
          some { req := req
                 resp := some (invalidUpstreamProxyResponse req Flags.UpstreamProxy)
                 ctx := storePayload Flags req ctx }) := by
  refine ⟨?_, ?_, ?_⟩
  · intro h
    simp [resolveAndBind, hua, hres, h]
  · intro proxyUrl h hp
    simp [resolveAndBind, hua, hres, h, hp]
  · intro err h hp
    simp [resolveAndBind, hua, hres, h, hp]

/-- Whatever `resolveAndBind` returns, its early response is absent or is the
invalid-upstream response. -/
theorem resolveAndBind_resp (ext : Externals) (Flags : ProxySetup) (req : Request)
    (ctx : ProxyCtx) (r : HandlerResult) (h : resolveAndBind ext Flags req ctx = some r) :
    r.resp = none ∨ r.resp = some (invalidUpstreamProxyResponse req Flags.UpstreamProxy) := by
  unfold resolveAndBind at h
  split at h
  · cases h
  · split at h
    · cases h
    · simp only at h
      split at h
      · split at h
        · cases h; right; rfl
        · cases h; left; rfl
      · cases h; left; rfl

/-! ## Lemmas: the selection loop -/

theorem foldl_selectStep_spec (m : Int) (keys : List Int) (init : Int) :
    (keys.foldl (selectStep m) init = init ∨
        (keys.foldl (selectStep m) init ∈ keys ∧ keys.foldl (selectStep m) init ≤ m ∧
          init < keys.foldl (selectStep m) init)) ∧
      (∀ k ∈ keys, k ≤ m → k ≤ keys.foldl (selectStep m) init) := by
  induction keys generalizing init with
  | nil => simp
  | cons k ks ih =>
    simp only [List.foldl_cons, List.mem_cons]
    obtain ⟨h1, h2⟩ := ih (selectStep m init k)
    have hstep : selectStep m init k = init ∨ (selectStep m init k = k ∧ k ≤ m ∧ init < k) := by
      unfold selectStep
      split
      · rename_i hc
        exact Or.inr ⟨rfl, hc.1, hc.2⟩
      · exact Or.inl rfl
    have hge : ∀ j, j = k → j ≤ m → j ≤ selectStep m init k := by
      intro j hj hjm
      subst hj
      unfold selectStep
      split
      · exact le_refl _
      · rename_i hc
        have : ¬ j > init := fun hgt => hc ⟨hjm, hgt⟩
        omega
    have hmono : selectStep m init k ≤ List.foldl (selectStep m) (selectStep m init k) ks := by
      rcases h1 with h1 | ⟨_, _, h1⟩
      · rw [h1]
      · exact le_of_lt h1
    refine ⟨?_, ?_⟩
    · rcases h1 with h1 | ⟨ha, hb, hc⟩
      · rcases hstep with hs | ⟨hs, hkm, hik⟩
        · left; rw [h1, hs]
        · right
          rw [h1, hs]
          exact ⟨Or.inl rfl, hkm, hik⟩
      · right
        refine ⟨Or.inr ha, hb, ?_⟩
        rcases hstep with hs | ⟨hs, _, hik⟩
        · omega
        · omega
    · intro j hj hjm
      rcases hj with hj | hj
      · exact le_trans (hge j hj hjm) hmono
      · exact h2 j hj hjm

theorem selectVersion_spec (m : Int) (keys : List Int) :
    (selectVersion m keys = -1 ∨ (selectVersion m keys ∈ keys ∧ selectVersion m keys ≤ m ∧
        -1 < selectVersion m keys)) ∧
      (∀ k ∈ keys, k ≤ m → k ≤ selectVersion m keys) :=
  foldl_selectStep_spec m keys (-1)

/-- On a family that satisfies the invariant the selection loop ends on the
floor key, and that key is bound in the family. -/
theorem selectVersion_isFloorKey (versions : List (Int × String)) (m : Int)
    (hinv : FamilyInvariant versions) :
    IsFloorKey versions m (selectVersion m (GoMap.keys versions)) ∧
      ∃ tok, GoMap.index versions (selectVersion m (GoMap.keys versions)) = some tok := by
  obtain ⟨hcount, hnonneg⟩ := hinv
  have hsent : (-1 : Int) ∈ GoMap.keys versions := by
    apply List.count_pos_iff.mp
    omega
  obtain ⟨h1, h2⟩ := selectVersion_spec m (GoMap.keys versions)
  rcases h1 with h1 | ⟨hmem, hle, hgt⟩
  · refine ⟨Or.inr ⟨h1, ?_⟩, ?_⟩
    · intro k' hk' hne hle
      have := h2 k' hk' hle
      have := hnonneg k' hk' hne
      omega
    · rw [h1]
      exact GoMap.index_of_mem_keys versions (-1) hsent
  · refine ⟨Or.inl ⟨hmem, by omega, hle, ?_⟩, GoMap.index_of_mem_keys versions _ hmem⟩
    intro k' hk' _ hle'
    exact h2 k' hk' hle'

/-- Floor selection by `utlsVersionIn` on any catalog that satisfies the
invariant, whatever the order in which its entries are listed. -/
theorem utlsVersionIn_floor (dict : Catalog) (hinv : CatalogInvariant dict)
    (name version : String) (versions : List (Int × String)) (m : Int)
    (hfam : GoMap.index dict name = some versions)
    (hm : Atoi (textBefore '.' version) = .ok m) :
    ∃ k tok, IsFloorKey versions m k ∧ GoMap.index versions k = some tok ∧
      utlsVersionIn dict name version = some (.ok tok) := by
  have hfi : FamilyInvariant versions := hinv (name, versions) (GoMap.index_mem dict name versions hfam)
  obtain ⟨hfloor, tok, htok⟩ := selectVersion_isFloorKey versions m hfi
  refine ⟨_, tok, hfloor, htok, ?_⟩
  simp only [utlsVersionIn, hfam, Split_index_zero, hm, htok]

theorem utlsDict_invariant : CatalogInvariant utlsDict := by decide

/-- The three ways `utlsVersion` ends: family absent, major version rejected by
`Atoi`, or a token. -/
theorem utlsVersion_cases (name ver : String) :
    (GoMap.index utlsDict name = none ∧
      utlsVersion name ver = some (.error (.notFound name))) ∨
    (∃ versions err, GoMap.index utlsDict name = some versions ∧
      Atoi (textBefore '.' ver) = .error err ∧
      utlsVersion name ver = some (.error (.parseMajor err))) ∨
    (∃ versions m tok, GoMap.index utlsDict name = some versions ∧
      Atoi (textBefore '.' ver) = .ok m ∧
      utlsVersion name ver = some (.ok tok)) := by
  cases hfam : GoMap.index utlsDict name with
  | none =>
    left
    exact ⟨rfl, by simp [utlsVersion, utlsVersionIn, hfam]⟩
  | some versions =>
    right
    cases hm : Atoi (textBefore '.' ver) with
    | error err =>
      left
      exact ⟨versions, err, rfl, rfl,
        by simp [utlsVersion, utlsVersionIn, hfam, Split_index_zero, hm]⟩
    | ok m =>
      right
      obtain ⟨k, tok, _, _, h3⟩ :=
        utlsVersionIn_floor utlsDict utlsDict_invariant name ver versions m hfam hm
      exact ⟨versions, m, tok, rfl, rfl, h3⟩

/-- The specification's resolver fails on an unrecognised family and on an
unparsable version. -/
theorem getClientHelloID_error_of_unresolved (parse : String → UserAgent) (ua : String)
    (h : GoMap.index utlsDict (parse ua).Name = none ∨
      ∃ err, Atoi (textBefore '.' (parse ua).Version) = .error err) :
    ∃ e, getClientHelloID parse ua = some (.error e) := by
  rcases utlsVersion_cases (parse ua).Name (parse ua).Version with
    ⟨_, h'⟩ | ⟨_, _, _, _, h'⟩ | ⟨_, _, _, hfam, hm, _⟩
  · exact ⟨.utls (.notFound (parse ua).Name), by simp [getClientHelloID, uagentToUtls, h']⟩
  · rename_i err _ _
    exact ⟨.utls (.parseMajor err), by simp [getClientHelloID, uagentToUtls, h']⟩
  · rcases h with h | ⟨err, h⟩
    · rw [hfam] at h; cases h
    · rw [hm] at h; cases h


/-! ## The authentication gate -/

/-- C2, as stated, fails: with the configured pair `("a:b", "c")` and the header
`Basic YTpiOmM=`, whose payload decodes to exactly `a:b:c`, the request carries
the configured pair but `validateProxyAuth` returns false, because the decoded
text is split at its first `:`. -/
theorem validateProxyAuth_colon_username_rejected :
    validateProxyAuth (requestWithProxyAuth ["Basic YTpiOmM="]) "a:b" "c" = some false ∧
      CarriesBasicCredentials (requestWithProxyAuth ["Basic YTpiOmM="]) "a:b" "c" ∧
      ¬ (∀ (req : Request) (username password : String),
          validateProxyAuth req username password = some true ↔
            (username = "" ∧ password = "") ∨
              CarriesBasicCredentials req username password) := by
  have hcarry : CarriesBasicCredentials (requestWithProxyAuth ["Basic YTpiOmM="]) "a:b" "c" :=
    ⟨"YTpiOmM=", by decide, by decide⟩
  have hval : validateProxyAuth (requestWithProxyAuth ["Basic YTpiOmM="]) "a:b" "c" =
      some false := by decide
  refine ⟨hval, hcarry, ?_⟩
  intro hall
  have := (hall (requestWithProxyAuth ["Basic YTpiOmM="]) "a:b" "c").2 (Or.inr hcarry)
  rw [hval] at this
  cases this

/-- C2, amended. `validateProxyAuth` returns true if and only if either the
configured username and password are both empty, or the username contains no
`:` and the request carries a `Proxy-Authorization` header `Basic ` followed by
standard base64 decoding to exactly `username ++ ":" ++ password`.  It always
returns a boolean (no panic, no error); with credentials configured, a missing
header, a scheme other than `Basic `, undecodable base64 and a decoded value
without `:` all give false. -/
theorem validateProxyAuth_iff (req : Request) (username password : String) :
    (validateProxyAuth req username password = some true ↔
        (username = "" ∧ password = "") ∨
          (':' ∉ username.data ∧ CarriesBasicCredentials req username password)) ∧
    (∃ b, validateProxyAuth req username password = some b) ∧
    (¬(username = "" ∧ password = "") →
      (HTTPHeader.Get req.Header "Proxy-Authorization" = "" →
          validateProxyAuth req username password = some false) ∧
      (HasPrefix (HTTPHeader.Get req.Header "Proxy-Authorization") "Basic " = false →
          validateProxyAuth req username password = some false) ∧
      (∀ enc e, HTTPHeader.Get req.Header "Proxy-Authorization" = "Basic " ++ enc →
          DecodeString enc = .error e →
          validateProxyAuth req username password = some false) ∧
      (∀ enc creds, HTTPHeader.Get req.Header "Proxy-Authorization" = "Basic " ++ enc →
          DecodeString enc = .ok creds → ':' ∉ creds.data →
          validateProxyAuth req username password = some false)) := by
  by_cases hcfg : username = "" ∧ password = ""
  · have hv : validateProxyAuth req username password = some true := by
      simp [validateProxyAuth, hcfg]
    exact ⟨⟨fun _ => Or.inl hcfg, fun _ => hv⟩, ⟨true, hv⟩, fun h => absurd hcfg h⟩
  · have hmissing : HTTPHeader.Get req.Header "Proxy-Authorization" = "" →
        validateProxyAuth req username password = some false := by
      intro h
      simp [validateProxyAuth, hcfg, h]
    have hscheme : HasPrefix (HTTPHeader.Get req.Header "Proxy-Authorization") "Basic " = false →
        validateProxyAuth req username password = some false := by
      intro h
      unfold validateProxyAuth
      simp only [hcfg, if_false, h, if_true]
      split <;> rfl
    have hnotcarry_of_false : validateProxyAuth req username password = some false →
        ¬ validateProxyAuth req username password = some true := by
      intro h h'
      rw [h] at h'
      cases h'
    refine ⟨?_, ?_, fun _ => ⟨hmissing, hscheme, ?_, ?_⟩⟩
    · -- the characterisation
      constructor
      · intro hv
        right
        by_cases hpre : HasPrefix (HTTPHeader.Get req.Header "Proxy-Authorization") "Basic " = true
        · obtain ⟨enc, henc⟩ := (HasPrefix_iff _ _).1 hpre
          obtain ⟨herr, hok⟩ := validateProxyAuth_basic req username password enc hcfg henc
          cases hd : DecodeString enc with
          | error e => exact absurd hv (hnotcarry_of_false (herr e hd))
          | ok creds =>
            have := hok creds hd
            rw [hv] at this
            have hdec : ':' ∉ username.data ∧ creds = username ++ ":" ++ password := by
              simpa using this.symm
            exact ⟨hdec.1, enc, henc, by rw [hd, hdec.2]⟩
        · have hpre' : HasPrefix (HTTPHeader.Get req.Header "Proxy-Authorization") "Basic " =
              false := by
            simpa using hpre
          exact absurd hv (hnotcarry_of_false (hscheme hpre'))
      · rintro (h | ⟨hu, enc, henc, hd⟩)
        · exact absurd h hcfg
        · obtain ⟨_, hok⟩ := validateProxyAuth_basic req username password enc hcfg henc
          rw [hok _ hd]
          simp [hu]
    · exact validateProxyAuth_total req username password
    · intro enc e henc hd
      exact (validateProxyAuth_basic req username password enc hcfg henc).1 e hd
    · intro enc creds henc hd hcolon
      rw [(validateProxyAuth_basic req username password enc hcfg henc).2 creds hd]
      have hno : ¬(':' ∉ username.data ∧ creds = username ++ ":" ++ password) := by
        rintro ⟨_, hc⟩
        apply hcolon
        rw [hc]
        simp [String.data_append]
      simp only [hno, decide_False]

/-- Witness for C2: the pair `("user", "pass")` is accepted on the header
`Basic dXNlcjpwYXNz` and, being configured, rejected on a request that carries
no `Proxy-Authorization` value. -/
theorem validateProxyAuth_iff_witness :
    ':' ∉ ("user" : String).data ∧
      CarriesBasicCredentials (requestWithProxyAuth ["Basic dXNlcjpwYXNz"]) "user" "pass" ∧
      validateProxyAuth (requestWithProxyAuth ["Basic dXNlcjpwYXNz"]) "user" "pass" = some true ∧
      validateProxyAuth (requestWithProxyAuth []) "user" "pass" = some false := by
  have hcarry :
      CarriesBasicCredentials (requestWithProxyAuth ["Basic dXNlcjpwYXNz"]) "user" "pass" :=
    ⟨"dXNlcjpwYXNz", by decide, by decide⟩
  exact ⟨by decide, hcarry,
    (validateProxyAuth_iff (requestWithProxyAuth ["Basic dXNlcjpwYXNz"]) "user" "pass").1.2
      (Or.inr ⟨by decide, hcarry⟩),
    ((validateProxyAuth_iff (requestWithProxyAuth []) "user" "pass").2.2 (by decide)).1
      (by decide)⟩

/-! ## The request pipeline -/

/-- C4. Tunnel authentication is sticky.  The CONNECT handler always returns:
when `validateProxyAuth` accepts the CONNECT request it answers `MitmConnect`
and sets `UserData` to the map `authKey ↦ true`; when it does not, it answers
`RejectConnect` with the 407 response and leaves `UserData` as it was.  On a
context whose `UserData` is that map, the request handler behaves, for every
configured username and password and every request, as it does with no
credentials configured: any early response it returns has status 400, never
407, and it does return whenever the resolver does. -/
theorem tunnel_authentication_sticky (ext : Externals) (Flags : ProxySetup) (host : String)
    (connectCtx : ProxyCtx) :
    (validateProxyAuth connectCtx.Req Flags.Username Flags.Password = some true →
        handleConnect Flags host connectCtx =
          some (.MitmConnect, host,
            { connectCtx with UserData := .ctxMap [(authKey, .bool true)] })) ∧
    (validateProxyAuth connectCtx.Req Flags.Username Flags.Password = some false →
        handleConnect Flags host connectCtx =
          some (.RejectConnect, host,
            { connectCtx with Resp := some (proxyAuthRequiredResponse connectCtx.Req) })) ∧
    (∃ out, handleConnect Flags host connectCtx = some out) ∧
    (∀ (req : Request) (ctx : ProxyCtx),
        ctx.UserData = .ctxMap [(authKey, .bool true)] →
        (handleRequest ext Flags req ctx =
            handleRequest ext { Flags with Username := "", Password := "" } req ctx) ∧
        (∀ r, handleRequest ext Flags req ctx = some r →
            ∀ resp, r.resp = some resp →
              resp.StatusCode = 400 ∧ resp.StatusCode ≠ StatusProxyAuthRequired) ∧
        (effectiveUserAgent Flags req = none →
            ∃ r, handleRequest ext Flags req ctx = some r) ∧
        (∀ ua, effectiveUserAgent Flags req = some ua → ext.getClientHelloID ua ≠ none →
            ∃ r, handleRequest ext Flags req ctx = some r)) := by
  refine ⟨?_, ?_, ?_, ?_⟩
  · intro h
    simp [handleConnect, h]
  · intro h
    simp [handleConnect, h]
  · obtain ⟨b, hb⟩ := validateProxyAuth_total connectCtx.Req Flags.Username Flags.Password
    cases b <;> simp [handleConnect, hb]
  · intro req ctx hud
    have hauth := isAuthenticated_of_connect ctx hud
    have hpass : PassesAuthentication Flags req ctx := Or.inl hauth
    have hpass' : PassesAuthentication { Flags with Username := "", Password := "" } req ctx :=
      Or.inl hauth
    refine ⟨?_, ?_, ?_, ?_⟩
    · rw [handleRequest_of_passes ext Flags req ctx hpass,
        handleRequest_of_passes ext _ req ctx hpass']
      rfl
    · intro r hr resp hresp
      rw [handleRequest_of_passes ext Flags req ctx hpass] at hr
      have h400 : r.resp = none ∨ ∃ x, r.resp = some x ∧ x.StatusCode = 400 := by
        split at hr
        · rcases resolveAndBind_resp ext Flags _ ctx r hr with h | h
          · exact Or.inl h
          · exact Or.inr ⟨_, h, rfl⟩
        · split at hr
          · cases hr
            exact Or.inr ⟨_, rfl, rfl⟩
          · rcases resolveAndBind_resp ext Flags _ ctx r hr with h | h
            · exact Or.inl h
            · exact Or.inr ⟨_, h, rfl⟩
      rcases h400 with h | ⟨x, hx, hs⟩
      · rw [h] at hresp; cases hresp
      · rw [hx] at hresp
        cases hresp
        exact ⟨hs, by rw [hs]; decide⟩
    · intro hnone
      rw [handleRequest_of_passes ext Flags req ctx hpass]
      have hov : Flags.UserAgent = "" := by
        by_contra hne
        simp [effectiveUserAgent, hne] at hnone
      have hlen : (HTTPHeader.values req.Header "User-Agent").length = 0 := by
        have : (HTTPHeader.values req.Header "User-Agent")[0]? = none := by
          simpa [effectiveUserAgent, hov] using hnone
        cases hv : HTTPHeader.values req.Header "User-Agent" with
        | nil => rfl
        | cons v vs => rw [hv] at this; simp at this
      simp [hov, hlen]
    · intro ua hua hres
      obtain ⟨heq, hidx⟩ := handleRequest_of_effective ext Flags req ctx ua hpass hua
      rw [heq]
      cases hr : ext.getClientHelloID ua with
      | none => exact absurd hr hres
      | some resolved =>
        obtain ⟨h1, h2, h3⟩ :=
          resolveAndBind_of_resolved ext Flags (effectiveRequest Flags req) ctx ua resolved hidx hr
        by_cases hup : Flags.UpstreamProxy = ""
        · exact ⟨_, h1 hup⟩
        · cases hp : ext.urlParse Flags.UpstreamProxy with
          | error err => exact ⟨_, h3 err hup hp⟩
          | ok proxyUrl => exact ⟨_, h2 proxyUrl hup hp⟩

/-- Witness for C4: with `user`/`pass` configured, a CONNECT carrying the right
header is accepted, and a later request on that tunnel that carries no
credentials at all is served like one on an open proxy, here with the
missing-User-Agent response of status 400. -/
theorem tunnel_authentication_sticky_witness :
    validateProxyAuth (requestWithProxyAuth ["Basic dXNlcjpwYXNz"]) "user" "pass" = some true ∧
      handleConnect { defaultSetup with Username := "user", Password := "pass" } "example.org:443"
          (freshCtx (requestWithProxyAuth ["Basic dXNlcjpwYXNz"])) =
        some (.MitmConnect, "example.org:443",
          { freshCtx (requestWithProxyAuth ["Basic dXNlcjpwYXNz"]) with
            UserData := .ctxMap [(authKey, .bool true)] }) ∧
      handleRequest sampleExternals { defaultSetup with Username := "user", Password := "pass" }
          { Header := [], Context := [] }
          { freshCtx { Header := [], Context := [] } with
            UserData := .ctxMap [(authKey, .bool true)] } =
        handleRequest sampleExternals
          { defaultSetup with Username := "", Password := "" }
          { Header := [], Context := [] }
          { freshCtx { Header := [], Context := [] } with
            UserData := .ctxMap [(authKey, .bool true)] } :=
  ⟨by decide,
    (tunnel_authentication_sticky sampleExternals
      { defaultSetup with Username := "user", Password := "pass" } "example.org:443"
      (freshCtx (requestWithProxyAuth ["Basic dXNlcjpwYXNz"]))).1 (by decide),
    ((tunnel_authentication_sticky sampleExternals
      { defaultSetup with Username := "user", Password := "pass" } "example.org:443"
      (freshCtx (requestWithProxyAuth ["Basic dXNlcjpwYXNz"]))).2.2.2
        { Header := [], Context := [] }
        { freshCtx { Header := [], Context := [] } with
          UserData := .ctxMap [(authKey, .bool true)] } rfl).1⟩

/-- C5. For a request that is not on an authenticated tunnel and that
`validateProxyAuth` rejects, the handler returns the request as it received it
together with an early response of status 407, content type `text/plain`, body
`HAZETUNNEL ERROR: Proxy authentication required` and header
`Proxy-Authenticate: Basic realm="Hazetunnel Proxy"`; the proxy context is left
as it was, so no User-Agent override, no payload marker and no round tripper. -/
theorem handleRequest_auth_required (ext : Externals) (Flags : ProxySetup) (req : Request)
    (ctx : ProxyCtx) (hunauth : isAuthenticated ctx = some false)
    (hval : validateProxyAuth req Flags.Username Flags.Password = some false) :
    ∃ resp : Response,
      handleRequest ext Flags req ctx = some { req := req, resp := some resp, ctx := ctx } ∧
      resp.StatusCode = 407 ∧
      resp.Body = "HAZETUNNEL ERROR: Proxy authentication required" ∧
      HTTPHeader.values resp.Header "Content-Type" = ["text/plain"] ∧
      HTTPHeader.values resp.Header "Proxy-Authenticate" =
        ["Basic realm=\"Hazetunnel Proxy\""] ∧
      HTTPHeader.Get resp.Header "Proxy-Authenticate" = "Basic realm=\"Hazetunnel Proxy\"" := by
  refine ⟨proxyAuthRequiredResponse req, ?_, rfl, rfl, rfl, rfl, rfl⟩
  simp [handleRequest, hunauth, hval]

/-- Witness for C5: `user`/`pass` configured, a request without credentials on a
fresh context. -/
theorem handleRequest_auth_required_witness :
    isAuthenticated (freshCtx (requestWithProxyAuth [])) = some false ∧
      validateProxyAuth (requestWithProxyAuth []) "user" "pass" = some false ∧
      ∃ resp : Response,
        handleRequest sampleExternals { defaultSetup with Username := "user", Password := "pass" }
            (requestWithProxyAuth []) (freshCtx (requestWithProxyAuth [])) =
          some { req := requestWithProxyAuth [], resp := some resp,
                 ctx := freshCtx (requestWithProxyAuth []) } ∧
        resp.StatusCode = 407 ∧
        resp.Body = "HAZETUNNEL ERROR: Proxy authentication required" ∧
        HTTPHeader.values resp.Header "Content-Type" = ["text/plain"] ∧
        HTTPHeader.values resp.Header "Proxy-Authenticate" =
          ["Basic realm=\"Hazetunnel Proxy\""] ∧
        HTTPHeader.Get resp.Header "Proxy-Authenticate" = "Basic realm=\"Hazetunnel Proxy\"" :=
  ⟨by decide, by decide,
    handleRequest_auth_required sampleExternals
      { defaultSetup with Username := "user", Password := "pass" }
      (requestWithProxyAuth []) (freshCtx (requestWithProxyAuth [])) (by decide) (by decide)⟩

/-- C6, as stated, fails: with `user`/`pass` configured and no User-Agent
override, a request that has no User-Agent header and no credentials gets the
407 response, not the 400 one, because authentication is checked first. -/
theorem missing_user_agent_behind_auth :
    ({ defaultSetup with Username := "user", Password := "pass" } : ProxySetup).UserAgent = "" ∧
      HTTPHeader.values (requestWithProxyAuth []).Header "User-Agent" = [] ∧
      handleRequest sampleExternals { defaultSetup with Username := "user", Password := "pass" }
          (requestWithProxyAuth []) (freshCtx (requestWithProxyAuth [])) =
        some { req := requestWithProxyAuth []
               resp := some (proxyAuthRequiredResponse (requestWithProxyAuth []))
               ctx := freshCtx (requestWithProxyAuth []) } ∧
      (proxyAuthRequiredResponse (requestWithProxyAuth [])).StatusCode = 407 ∧
      ¬ (∀ (ext : Externals) (Flags : ProxySetup) (req : Request) (ctx : ProxyCtx),
          Flags.UserAgent = "" → HTTPHeader.values req.Header "User-Agent" = [] →
          ∃ r resp, handleRequest ext Flags req ctx = some r ∧ r.resp = some resp ∧
            resp.StatusCode = 400 ∧
            resp.Body = "HAZETUNNEL ERROR: Missing header: User-Agent") := by
  have hrun : handleRequest sampleExternals
      { defaultSetup with Username := "user", Password := "pass" }
      (requestWithProxyAuth []) (freshCtx (requestWithProxyAuth [])) =
        some { req := requestWithProxyAuth []
               resp := some (proxyAuthRequiredResponse (requestWithProxyAuth []))
               ctx := freshCtx (requestWithProxyAuth []) } := by
    simp [handleRequest, show isAuthenticated (freshCtx (requestWithProxyAuth [])) = some false
      from by decide, show validateProxyAuth (requestWithProxyAuth []) "user" "pass" = some false
      from by decide, defaultSetup]
  refine ⟨rfl, by decide, hrun, rfl, ?_⟩
  intro hall
  obtain ⟨r, resp, hr, hresp, hstatus, _⟩ :=
    hall sampleExternals { defaultSetup with Username := "user", Password := "pass" }
      (requestWithProxyAuth []) (freshCtx (requestWithProxyAuth [])) rfl (by decide)
  rw [hrun] at hr
  cases hr
  cases hresp
  revert hstatus
  decide

/-- C6, amended. A request that passes authentication, has no User-Agent header
and is handled with no User-Agent override configured gets a 400 early response
with body `HAZETUNNEL ERROR: Missing header: User-Agent`; the request and the
proxy context come back unchanged (no round tripper is bound), and this holds
whatever the resolver and the URL parser are, so neither has been consulted. -/
theorem handleRequest_missing_user_agent (ext : Externals) (Flags : ProxySetup) (req : Request)
    (ctx : ProxyCtx) (hpass : PassesAuthentication Flags req ctx)
    (hoverride : Flags.UserAgent = "")
    (hnone : HTTPHeader.values req.Header "User-Agent" = []) :
    ∃ resp : Response,
      handleRequest ext Flags req ctx = some { req := req, resp := some resp, ctx := ctx } ∧
      resp.StatusCode = 400 ∧
      resp.Body = "HAZETUNNEL ERROR: Missing header: User-Agent" ∧
      HTTPHeader.values resp.Header "Content-Type" = ["text/plain"] := by
  refine ⟨missingParameterResponse req "User-Agent", ?_, rfl, rfl, rfl⟩
  rw [handleRequest_of_passes ext Flags req ctx hpass]
  simp [hoverride, hnone]

/-- Witness for C6: an open proxy and a request without any header. -/
theorem handleRequest_missing_user_agent_witness :
    PassesAuthentication defaultSetup (requestWithProxyAuth [])
        (freshCtx (requestWithProxyAuth [])) ∧
      defaultSetup.UserAgent = "" ∧
      HTTPHeader.values (requestWithProxyAuth []).Header "User-Agent" = [] ∧
      ∃ resp : Response,
        handleRequest sampleExternals defaultSetup (requestWithProxyAuth [])
            (freshCtx (requestWithProxyAuth [])) =
          some { req := requestWithProxyAuth [], resp := some resp,
                 ctx := freshCtx (requestWithProxyAuth []) } ∧
        resp.StatusCode = 400 ∧
        resp.Body = "HAZETUNNEL ERROR: Missing header: User-Agent" ∧
        HTTPHeader.values resp.Header "Content-Type" = ["text/plain"] :=
  ⟨Or.inr ⟨by decide, by decide⟩, rfl, by decide,
    handleRequest_missing_user_agent sampleExternals defaultSetup (requestWithProxyAuth [])
      (freshCtx (requestWithProxyAuth [])) (Or.inr ⟨by decide, by decide⟩) rfl (by decide)⟩

/-- C7. Resolution failure is masked.  For a request that passes authentication
and has an effective User-Agent, if the resolver returns an error on it (with
the specification's resolver: the family is unrecognised or the version does not
parse), the handler returns, the identity of the round tripper it binds is
`HelloChrome_Auto`, and its early response is none when the upstream proxy is
empty or parses and the invalid-upstream 400 otherwise: the same request and the
same early response as with any resolver that succeeds. -/
theorem resolution_failure_masked (ext : Externals) (Flags : ProxySetup) (req : Request)
    (ctx : ProxyCtx) (ua : String) (hpass : PassesAuthentication Flags req ctx)
    (hua : effectiveUserAgent Flags req = some ua)
    (hfail : (∃ err, ext.getClientHelloID ua = some (.error err)) ∨
      (∃ parse, ext.getClientHelloID = getClientHelloID parse ∧
        (GoMap.index utlsDict (parse ua).Name = none ∨
          ∃ err, Atoi (textBefore '.' (parse ua).Version) = .error err))) :
    ∃ r, handleRequest ext Flags req ctx = some r ∧
      r.req = effectiveRequest Flags req ∧
      (Flags.UpstreamProxy = "" →
        r.resp = none ∧
        r.ctx.RoundTripper =
          some (NewUTLSHTTPRoundTripperWithProxy ext.HelloChrome_Auto
            { InsecureSkipVerify := true, OmitEmptyPsk := true } false none)) ∧
      (∀ proxyUrl, Flags.UpstreamProxy ≠ "" →
        ext.urlParse Flags.UpstreamProxy = .ok proxyUrl →
        r.resp = none ∧
        r.ctx.RoundTripper =
          some (NewUTLSHTTPRoundTripperWithProxy ext.HelloChrome_Auto
            { InsecureSkipVerify := true, OmitEmptyPsk := true } false (some proxyUrl))) ∧
      (∀ err, Flags.UpstreamProxy ≠ "" →
        ext.urlParse Flags.UpstreamProxy = .error err →
        r.resp = some (invalidUpstreamProxyResponse r.req Flags.UpstreamProxy)) ∧
      (∀ (ext' : Externals) (id : ClientHelloID),
        ext'.urlParse = ext.urlParse → ext'.getClientHelloID ua = some (.ok id) →
        ∃ r', handleRequest ext' Flags req ctx = some r' ∧ r'.req = r.req ∧
          r'.resp = r.resp) := by
  have herr : ∃ err, ext.getClientHelloID ua = some (.error err) := by
    rcases hfail with h | ⟨parse, hp, h⟩
    · exact h
    · rw [hp]
      exact getClientHelloID_error_of_unresolved parse ua h
  obtain ⟨err, hres⟩ := herr
  obtain ⟨heq, hidx⟩ := handleRequest_of_effective ext Flags req ctx ua hpass hua
  obtain ⟨h1, h2, h3⟩ :=
    resolveAndBind_of_resolved ext Flags (effectiveRequest Flags req) ctx ua (.error err) hidx hres
  have other : ∀ (ext' : Externals) (id : ClientHelloID),
      ext'.getClientHelloID ua = some (.ok id) →
      (Flags.UpstreamProxy = "" →
        ∃ r', handleRequest ext' Flags req ctx = some r' ∧
          r'.req = effectiveRequest Flags req ∧ r'.resp = none) ∧
      (∀ proxyUrl, Flags.UpstreamProxy ≠ "" → ext'.urlParse Flags.UpstreamProxy = .ok proxyUrl →
        ∃ r', handleRequest ext' Flags req ctx = some r' ∧
          r'.req = effectiveRequest Flags req ∧ r'.resp = none) ∧
      (∀ e, Flags.UpstreamProxy ≠ "" → ext'.urlParse Flags.UpstreamProxy = .error e →
        ∃ r', handleRequest ext' Flags req ctx = some r' ∧
          r'.req = effectiveRequest Flags req ∧
          r'.resp =
            some (invalidUpstreamProxyResponse (effectiveRequest Flags req)
              Flags.UpstreamProxy)) := by
    intro ext' id hid
    obtain ⟨heq', hidx'⟩ := handleRequest_of_effective ext' Flags req ctx ua hpass hua
    obtain ⟨g1, g2, g3⟩ :=
      resolveAndBind_of_resolved ext' Flags (effectiveRequest Flags req) ctx ua (.ok id) hidx' hid
    refine ⟨fun h => ⟨_, heq'.trans (g1 h), rfl, rfl⟩,
      fun u h hp => ⟨_, heq'.trans (g2 u h hp), rfl, rfl⟩,
      fun e h hp => ⟨_, heq'.trans (g3 e h hp), rfl, rfl⟩⟩
  by_cases hup : Flags.UpstreamProxy = ""
  · refine ⟨_, heq.trans (h1 hup), rfl, fun _ => ⟨rfl, rfl⟩, fun u h _ => absurd hup h,
      fun e h _ => absurd hup h, ?_⟩
    intro ext' id _ hid
    exact (other ext' id hid).1 hup
  · cases hp : ext.urlParse Flags.UpstreamProxy with
    | error e =>
      refine ⟨_, heq.trans (h3 e hup hp), rfl, fun h => absurd h hup, ?_, fun _ _ _ => rfl, ?_⟩
      · intro u _ hu
        cases hu
      · intro ext' id hurl hid
        exact (other ext' id hid).2.2 e hup (by rw [hurl]; exact hp)
    | ok proxyUrl =>
      refine ⟨_, heq.trans (h2 proxyUrl hup hp), rfl, fun h => absurd h hup, ?_, ?_, ?_⟩
      · intro u _ hu
        cases hu
        exact ⟨rfl, rfl⟩
      · intro e _ he
        cases he
      · intro ext' id hurl hid
        exact (other ext' id hid).2.1 proxyUrl hup (by rw [hurl]; exact hp)

/-- Witness for C7: the User-Agent `curl/8.0` names a family that is not in the
catalog; on an open proxy with no upstream the request goes on with no early
response and the round tripper carries `HelloChrome_Auto`. -/
theorem resolution_failure_masked_witness :
    PassesAuthentication defaultSetup (requestWithUserAgent ["curl/8.0"])
        (freshCtx (requestWithUserAgent ["curl/8.0"])) ∧
      effectiveUserAgent defaultSetup (requestWithUserAgent ["curl/8.0"]) = some "curl/8.0" ∧
      GoMap.index utlsDict (sampleParse "curl/8.0").Name = none ∧
      ∃ r, handleRequest sampleExternals defaultSetup (requestWithUserAgent ["curl/8.0"])
          (freshCtx (requestWithUserAgent ["curl/8.0"])) = some r ∧
        r.resp = none ∧
        r.ctx.RoundTripper =
          some (NewUTLSHTTPRoundTripperWithProxy sampleExternals.HelloChrome_Auto
            { InsecureSkipVerify := true, OmitEmptyPsk := true } false none) := by
  obtain ⟨r, hr, _, h, _⟩ :=
    resolution_failure_masked sampleExternals defaultSetup (requestWithUserAgent ["curl/8.0"])
      (freshCtx (requestWithUserAgent ["curl/8.0"])) "curl/8.0"
      (Or.inr ⟨by decide, by decide⟩) (by decide)
      (Or.inr ⟨sampleParse, rfl, Or.inl (by decide)⟩)
  exact ⟨Or.inr ⟨by decide, by decide⟩, by decide, by decide, r, hr, (h rfl).1, (h rfl).2⟩

/-- C8. For a request that passes authentication and has an effective
User-Agent on which the resolver returns: if the configured upstream proxy is
non-empty and `url.Parse` rejects it, the handler returns a 400 early response
with body `HAZETUNNEL ERROR: Invalid upstream proxy: ` followed by the
configured text and leaves the round tripper of the context as it was (none is
bound); if the upstream proxy is empty, or parses, the handler returns no early
response and binds a round tripper built with the parsed upstream, `nil` when
empty. -/
theorem upstream_proxy_handling (ext : Externals) (Flags : ProxySetup) (req : Request)
    (ctx : ProxyCtx) (ua : String) (resolved : Except ResolveError ClientHelloID)
    (hpass : PassesAuthentication Flags req ctx)
    (hua : effectiveUserAgent Flags req = some ua)
    (hres : ext.getClientHelloID ua = some resolved) :
    (∀ err, Flags.UpstreamProxy ≠ "" → ext.urlParse Flags.UpstreamProxy = .error err →
      ∃ r resp, handleRequest ext Flags req ctx = some r ∧ r.resp = some resp ∧
        resp.StatusCode = 400 ∧
        resp.Body = "HAZETUNNEL ERROR: Invalid upstream proxy: " ++ Flags.UpstreamProxy ∧
        HTTPHeader.values resp.Header "Content-Type" = ["text/plain"] ∧
        r.ctx.RoundTripper = ctx.RoundTripper) ∧
    (Flags.UpstreamProxy = "" →
      ∃ r, handleRequest ext Flags req ctx = some r ∧ r.resp = none ∧
        r.ctx.RoundTripper =
          some (NewUTLSHTTPRoundTripperWithProxy (clientHelloIdOrDefault ext resolved)
            { InsecureSkipVerify := true, OmitEmptyPsk := true } false none)) ∧
    (∀ proxyUrl, Flags.UpstreamProxy ≠ "" → ext.urlParse Flags.UpstreamProxy = .ok proxyUrl →
      ∃ r, handleRequest ext Flags req ctx = some r ∧ r.resp = none ∧
        r.ctx.RoundTripper =
          some (NewUTLSHTTPRoundTripperWithProxy (clientHelloIdOrDefault ext resolved)
            { InsecureSkipVerify := true, OmitEmptyPsk := true } false (some proxyUrl))) := by
  obtain ⟨heq, hidx⟩ := handleRequest_of_effective ext Flags req ctx ua hpass hua
  obtain ⟨h1, h2, h3⟩ :=
    resolveAndBind_of_resolved ext Flags (effectiveRequest Flags req) ctx ua resolved hidx hres
  refine ⟨?_, ?_, ?_⟩
  · intro err hup hp
    exact ⟨_, _, heq.trans (h3 err hup hp), rfl, rfl, rfl, rfl, rfl⟩
  · intro hup
    exact ⟨_, heq.trans (h1 hup), rfl, rfl⟩
  · intro proxyUrl hup hp
    exact ⟨_, heq.trans (h2 proxyUrl hup hp), rfl, rfl⟩

/-- Witness for C8: the upstream proxy `not a url::::` is rejected by the URL
parser, and a request with a Chrome User-Agent on an open proxy gets the 400
response that names it, with no round tripper on the fresh context. -/
theorem upstream_proxy_handling_witness :
    ({ defaultSetup with UpstreamProxy := "not a url::::" } : ProxySetup).UpstreamProxy ≠ "" ∧
      sampleExternals.urlParse "not a url::::" =
        .error ⟨"first path segment in URL cannot contain colon"⟩ ∧
      ∃ r resp,
        handleRequest sampleExternals { defaultSetup with UpstreamProxy := "not a url::::" }
          (requestWithUserAgent ["Chrome/65.0"])
          (freshCtx (requestWithUserAgent ["Chrome/65.0"])) = some r ∧
        r.resp = some resp ∧ resp.StatusCode = 400 ∧
        resp.Body = "HAZETUNNEL ERROR: Invalid upstream proxy: not a url::::" ∧
        r.ctx.RoundTripper = none := by
  obtain ⟨r, resp, hr, hresp, hs, hb, _, hrt⟩ :=
    (upstream_proxy_handling sampleExternals { defaultSetup with UpstreamProxy := "not a url::::" }
      (requestWithUserAgent ["Chrome/65.0"]) (freshCtx (requestWithUserAgent ["Chrome/65.0"]))
      "Chrome/65.0" (.ok ⟨"Chrome", "62"⟩)
      (Or.inr ⟨by decide, by decide⟩) (by decide) (by decide)).1
      ⟨"first path segment in URL cannot contain colon"⟩ (by decide) (by decide)
  exact ⟨by decide, by decide, r, resp, hr, hresp, hs, hb, hrt⟩

/-- C9. Effective User-Agent.  For a request that passes authentication: with a
non-empty override configured, whatever the handler returns carries the
User-Agent header `[override]`, whatever the client supplied, and the identity
of the round tripper it binds is the identity the resolver returns on the
override, or `HelloChrome_Auto` when the resolver returns an error on it; with
no override configured the request comes back as it was received, and the
identity is the one the resolver returns on the first User-Agent value the
client supplied, or `HelloChrome_Auto` on an error.  With the specification's
resolver the identity bound is the parsed family name with the token
`utlsVersion` returns for the effective User-Agent.  With no upstream proxy
configured the round tripper is always bound. -/
theorem effective_user_agent (ext : Externals) (Flags : ProxySetup) (req : Request)
    (ctx : ProxyCtx) (hpass : PassesAuthentication Flags req ctx) :
    (Flags.UserAgent ≠ "" →
      (∀ r, handleRequest ext Flags req ctx = some r →
        HTTPHeader.values r.req.Header "User-Agent" = [Flags.UserAgent]) ∧
      (∀ id : ClientHelloID, ext.getClientHelloID Flags.UserAgent = some (.ok id) →
        ∃ r, handleRequest ext Flags req ctx = some r ∧
          HTTPHeader.values r.req.Header "User-Agent" = [Flags.UserAgent] ∧
          (Flags.UpstreamProxy = "" → r.resp = none) ∧
          (r.resp = none → ∃ rt, r.ctx.RoundTripper = some rt ∧ rt.clientHelloId = id)) ∧
      (∀ err : ResolveError, ext.getClientHelloID Flags.UserAgent = some (.error err) →
        ∃ r, handleRequest ext Flags req ctx = some r ∧
          HTTPHeader.values r.req.Header "User-Agent" = [Flags.UserAgent] ∧
          (Flags.UpstreamProxy = "" → r.resp = none) ∧
          (r.resp = none →
            ∃ rt, r.ctx.RoundTripper = some rt ∧ rt.clientHelloId = ext.HelloChrome_Auto))) ∧
    (Flags.UserAgent = "" →
      (∀ r, handleRequest ext Flags req ctx = some r → r.req = req) ∧
      (∀ (v : String) (vs : List String) (id : ClientHelloID),
        HTTPHeader.values req.Header "User-Agent" = v :: vs →
        ext.getClientHelloID v = some (.ok id) →
        ∃ r, handleRequest ext Flags req ctx = some r ∧ r.req = req ∧
          (Flags.UpstreamProxy = "" → r.resp = none) ∧
          (r.resp = none → ∃ rt, r.ctx.RoundTripper = some rt ∧ rt.clientHelloId = id)) ∧
      (∀ (v : String) (vs : List String) (err : ResolveError),
        HTTPHeader.values req.Header "User-Agent" = v :: vs →
        ext.getClientHelloID v = some (.error err) →
        ∃ r, handleRequest ext Flags req ctx = some r ∧ r.req = req ∧
          (Flags.UpstreamProxy = "" → r.resp = none) ∧
          (r.resp = none →
            ∃ rt, r.ctx.RoundTripper = some rt ∧ rt.clientHelloId = ext.HelloChrome_Auto))) ∧
    (∀ (parse : String → UserAgent) (ua tok : String),
      ext.getClientHelloID = getClientHelloID parse →
      effectiveUserAgent Flags req = some ua →
      utlsVersion (parse ua).Name (parse ua).Version = some (.ok tok) →
      ∃ r, handleRequest ext Flags req ctx = some r ∧
        (Flags.UpstreamProxy = "" → r.resp = none) ∧
        (r.resp = none →
          ∃ rt, r.ctx.RoundTripper = some rt ∧
            rt.clientHelloId = { Client := (parse ua).Name, Version := tok })) := by
  have hreq : ∀ r, handleRequest ext Flags req ctx = some r → r.req = effectiveRequest Flags req := by
    intro r hr
    rw [handleRequest_of_passes ext Flags req ctx hpass] at hr
    have hrb : ∀ q, resolveAndBind ext Flags q ctx = some r → r.req = q := by
      intro q hq
      unfold resolveAndBind at hq
      split at hq
      · cases hq
      · split at hq
        · cases hq
        · simp only at hq
          split at hq
          · split at hq <;> (cases hq; rfl)
          · cases hq; rfl
    split at hr
    · exact hrb _ hr
    · rename_i hov
      have heff : effectiveRequest Flags req = req := by
        simp only [ne_eq, not_not] at hov
        simp [effectiveRequest, hov]
      rw [heff]
      split at hr
      · cases hr; rfl
      · exact hrb _ hr
  have hbound : ∀ (ua : String) (resolved : Except ResolveError ClientHelloID)
      (bound : ClientHelloID), effectiveUserAgent Flags req = some ua →
      ext.getClientHelloID ua = some resolved →
      clientHelloIdOrDefault ext resolved = bound →
      ∃ r, handleRequest ext Flags req ctx = some r ∧
        (Flags.UpstreamProxy = "" → r.resp = none) ∧
        (r.resp = none → ∃ rt, r.ctx.RoundTripper = some rt ∧ rt.clientHelloId = bound) := by
    intro ua resolved bound hua hres hb
    obtain ⟨heq, hidx⟩ := handleRequest_of_effective ext Flags req ctx ua hpass hua
    obtain ⟨h1, h2, h3⟩ :=
      resolveAndBind_of_resolved ext Flags (effectiveRequest Flags req) ctx ua resolved hidx hres
    by_cases hup : Flags.UpstreamProxy = ""
    · exact ⟨_, heq.trans (h1 hup), fun _ => rfl, fun _ => ⟨_, rfl, hb⟩⟩
    · cases hp : ext.urlParse Flags.UpstreamProxy with
      | error e =>
        refine ⟨_, heq.trans (h3 e hup hp), fun h => absurd h hup, fun h => ?_⟩
        cases h
      | ok proxyUrl =>
        exact ⟨_, heq.trans (h2 proxyUrl hup hp), fun h => absurd h hup, fun _ => ⟨_, rfl, hb⟩⟩
  have hoverride : Flags.UserAgent ≠ "" → ∀ r, handleRequest ext Flags req ctx = some r →
      HTTPHeader.values r.req.Header "User-Agent" = [Flags.UserAgent] := by
    intro hov r hr
    rw [hreq r hr]
    simp [effectiveRequest, hov, HTTPHeader.values_set]
  have hsame : Flags.UserAgent = "" → ∀ r, handleRequest ext Flags req ctx = some r →
      r.req = req := by
    intro hov r hr
    rw [hreq r hr]
    simp [effectiveRequest, hov]
  refine ⟨fun hov => ⟨hoverride hov, ?_, ?_⟩, fun hov => ⟨hsame hov, ?_, ?_⟩, ?_⟩
  · intro id hres
    obtain ⟨r, hr, hnone, hrt⟩ :=
      hbound Flags.UserAgent (.ok id) id (by simp [effectiveUserAgent, hov]) hres rfl
    exact ⟨r, hr, hoverride hov r hr, hnone, hrt⟩
  · intro err hres
    obtain ⟨r, hr, hnone, hrt⟩ :=
      hbound Flags.UserAgent (.error err) ext.HelloChrome_Auto
        (by simp [effectiveUserAgent, hov]) hres rfl
    exact ⟨r, hr, hoverride hov r hr, hnone, hrt⟩
  · intro v vs id hv hres
    obtain ⟨r, hr, hnone, hrt⟩ :=
      hbound v (.ok id) id (by simp [effectiveUserAgent, hov, hv]) hres rfl
    exact ⟨r, hr, hsame hov r hr, hnone, hrt⟩
  · intro v vs err hv hres
    obtain ⟨r, hr, hnone, hrt⟩ :=
      hbound v (.error err) ext.HelloChrome_Auto (by simp [effectiveUserAgent, hov, hv]) hres rfl
    exact ⟨r, hr, hsame hov r hr, hnone, hrt⟩
  · intro parse ua tok hext hua htok
    have hres : ext.getClientHelloID ua =
        some (.ok { Client := (parse ua).Name, Version := tok }) := by
      rw [hext]
      simp [getClientHelloID, uagentToUtls, htok]
    exact hbound ua _ _ hua hres rfl

/-- Witness for C9: with the override `Firefox/120.0` a request that announces
`curl/8.0` leaves the handler announcing `Firefox/120.0`, and the round tripper
bound carries the identity resolved from the override, Firefox with token `120`,
not one resolved from `curl/8.0` (an unknown family, which would give
`HelloChrome_Auto`). -/
theorem effective_user_agent_witness :
    PassesAuthentication { defaultSetup with UserAgent := "Firefox/120.0" }
        (requestWithUserAgent ["curl/8.0"]) (freshCtx (requestWithUserAgent ["curl/8.0"])) ∧
      sampleExternals.getClientHelloID "Firefox/120.0" =
        some (.ok { Client := "Firefox", Version := "120" }) ∧
      (∃ err, sampleExternals.getClientHelloID "curl/8.0" = some (.error err)) ∧
      ∃ r rt, handleRequest sampleExternals { defaultSetup with UserAgent := "Firefox/120.0" }
          (requestWithUserAgent ["curl/8.0"]) (freshCtx (requestWithUserAgent ["curl/8.0"])) =
            some r ∧
        HTTPHeader.values r.req.Header "User-Agent" = ["Firefox/120.0"] ∧
        r.resp = none ∧
        r.ctx.RoundTripper = some rt ∧
        rt.clientHelloId = { Client := "Firefox", Version := "120" } := by
  obtain ⟨r, hr, hh, hnone, hrt⟩ :=
    ((effective_user_agent sampleExternals { defaultSetup with UserAgent := "Firefox/120.0" }
      (requestWithUserAgent ["curl/8.0"]) (freshCtx (requestWithUserAgent ["curl/8.0"]))
      (Or.inr ⟨by decide, by decide⟩)).1 (by decide)).2.1 ⟨"Firefox", "120"⟩ (by decide)
  obtain ⟨rt, h1, h2⟩ := hrt (hnone rfl)
  exact ⟨Or.inr ⟨by decide, by decide⟩, by decide,
    ⟨.utls (.notFound "curl"), by decide⟩, r, rt, hr, hh, hnone rfl, h1, h2⟩

/-! ## The catalog and the fingerprint resolver -/

/-- C1. Floor selection. For every family of `utlsDict` and every version string
whose text before the first `.` parses as the integer `m`, `utlsVersion` returns
the token bound to the floor key of `m`: the largest non-sentinel key at most
`m`, or the sentinel `-1` when there is none.  The same holds for
`utlsVersionIn` on every catalog that satisfies the invariant, in whatever order
its keys are enumerated.  On the family `{58, 62, 70}` whose sentinel carries
the token of `58`: `65` gives the token of `62`, `10` the sentinel default,
`200` the token of `70`. -/
theorem utlsVersion_floor_selection :
    (∀ (name version : String) (versions : List (Int × String)) (m : Int),
        GoMap.index utlsDict name = some versions →
        Atoi (textBefore '.' version) = .ok m →
        ∃ k tok, IsFloorKey versions m k ∧ GoMap.index versions k = some tok ∧
          utlsVersion name version = some (.ok tok)) ∧
    (∀ (dict : Catalog), CatalogInvariant dict →
      ∀ (name version : String) (versions : List (Int × String)) (m : Int),
        GoMap.index dict name = some versions →
        Atoi (textBefore '.' version) = .ok m →
        ∃ k tok, IsFloorKey versions m k ∧ GoMap.index versions k = some tok ∧
          utlsVersionIn dict name version = some (.ok tok)) ∧
    (GoMap.index sampleFamily (-1) = GoMap.index sampleFamily 58 ∧
      utlsVersionIn sampleCatalog "Sample" "65" = (GoMap.index sampleFamily 62).map Except.ok ∧
      utlsVersionIn sampleCatalog "Sample" "10" = (GoMap.index sampleFamily (-1)).map Except.ok ∧
      utlsVersionIn sampleCatalog "Sample" "200" = (GoMap.index sampleFamily 70).map Except.ok ∧
      utlsVersionIn sampleCatalog "Sample" "65" = some (.ok "62") ∧
      utlsVersionIn sampleCatalog "Sample" "10" = some (.ok "58") ∧
      utlsVersionIn sampleCatalog "Sample" "200" = some (.ok "70")) := by
  refine ⟨?_, ?_, ?_⟩
  · intro name version versions m hfam hm
    exact utlsVersionIn_floor utlsDict utlsDict_invariant name version versions m hfam hm
  · intro dict hinv name version versions m hfam hm
    exact utlsVersionIn_floor dict hinv name version versions m hfam hm
  · decide

/-- Witness for C1: Edge `90.0.818.66` has major version `90`, whose floor key
in the Edge family is `85`; Chrome `65.0.3325.181` resolves to the token of
`62`. -/
theorem utlsVersion_floor_selection_witness :
    GoMap.index utlsDict "Edge" = some [(-1, "85"), (85, "85")] ∧
      Atoi (textBefore '.' "90.0.818.66") = .ok 90 ∧
      utlsVersion "Edge" "90.0.818.66" = some (.ok "85") ∧
      utlsVersion "Chrome" "65.0.3325.181" = some (.ok "62") ∧
      ∃ k tok, IsFloorKey [(-1, "85"), (85, "85")] 90 k ∧
        GoMap.index [((-1 : Int), "85"), (85, "85")] k = some tok ∧
        utlsVersion "Edge" "90.0.818.66" = some (.ok tok) :=
  ⟨by decide, by decide, by decide, by decide,
    utlsVersion_floor_selection.1 "Edge" "90.0.818.66" [(-1, "85"), (85, "85")] 90
      (by decide) (by decide)⟩

/-- C3. `utlsVersion` returns an error exactly when the family is absent from
`utlsDict` or the text before the first `.` of the version is not accepted by
`Atoi`; for a family of the catalog and a parsable major version it returns a
token; the empty version string always fails; the "no UTLS value found" error
is never returned; and the call never panics. -/
theorem utlsVersion_fails_iff (name version : String) :
    ((∃ e, utlsVersion name version = some (.error e)) ↔
        (GoMap.index utlsDict name = none ∨
          ∃ err, Atoi (textBefore '.' version) = .error err)) ∧
    (∀ (versions : List (Int × String)) (m : Int),
        GoMap.index utlsDict name = some versions →
        Atoi (textBefore '.' version) = .ok m →
        ∃ tok, utlsVersion name version = some (.ok tok)) ∧
    (∃ e, utlsVersion name "" = some (.error e)) ∧
    (∀ n v, utlsVersion name version ≠ some (.error (.noValue n v))) ∧
    utlsVersion name version ≠ none := by
  have hempty : Atoi (textBefore '.' "") = .error ⟨""⟩ := by decide
  have key := utlsVersion_cases name
  refine ⟨⟨?_, ?_⟩, ?_, ?_, ?_, ?_⟩
  · rintro ⟨e, he⟩
    rcases key version with ⟨h, _⟩ | ⟨_, err, _, h, _⟩ | ⟨_, _, tok, _, _, h⟩
    · exact Or.inl h
    · exact Or.inr ⟨err, h⟩
    · rw [h] at he
      cases he
  · rintro (h | ⟨err, h⟩)
    · rcases key version with ⟨_, h'⟩ | ⟨_, _, h', _, _⟩ | ⟨_, _, _, h', _, _⟩
      · exact ⟨_, h'⟩
      · rw [h] at h'; cases h'
      · rw [h] at h'; cases h'
    · rcases key version with ⟨_, h'⟩ | ⟨_, err', _, _, h'⟩ | ⟨_, _, _, _, h', _⟩
      · exact ⟨_, h'⟩
      · exact ⟨_, h'⟩
      · rw [h] at h'; cases h'
  · intro versions m hfam hm
    rcases key version with ⟨h', _⟩ | ⟨_, _, _, h', _⟩ | ⟨_, _, tok, _, _, h'⟩
    · rw [hfam] at h'; cases h'
    · rw [hm] at h'; cases h'
    · exact ⟨tok, h'⟩
  · rcases key "" with ⟨_, h'⟩ | ⟨_, _, _, _, h'⟩ | ⟨_, _, _, _, h', _⟩
    · exact ⟨_, h'⟩
    · exact ⟨_, h'⟩
    · rw [hempty] at h'; cases h'
  · intro n v hcontra
    rcases key version with ⟨_, h'⟩ | ⟨_, _, _, _, h'⟩ | ⟨_, _, _, _, _, h'⟩ <;>
      · rw [h'] at hcontra; cases hcontra
  · intro hcontra
    rcases key version with ⟨_, h'⟩ | ⟨_, _, _, _, h'⟩ | ⟨_, _, _, _, _, h'⟩ <;>
      · rw [h'] at hcontra; cases hcontra

/-- Witness for C3: the Chrome family is in the catalog and `65` parses, so a
token comes back; the version `x.1` does not parse, so the call fails. -/
theorem utlsVersion_fails_iff_witness :
    GoMap.index utlsDict "Chrome" ≠ none ∧
      Atoi (textBefore '.' "65.0") = .ok 65 ∧
      (∃ tok, utlsVersion "Chrome" "65.0" = some (.ok tok)) ∧
      (∃ e, utlsVersion "Chrome" "x.1" = some (.error e)) := by
  refine ⟨by decide, by decide, ?_, ?_⟩
  · cases hv : GoMap.index utlsDict "Chrome" with
    | none => exact absurd hv (by decide)
    | some versions =>
      exact (utlsVersion_fails_iff "Chrome" "65.0").2.1 versions 65 hv (by decide)
  · exact (utlsVersion_fails_iff "Chrome" "x.1").1.2 (Or.inr ⟨⟨"x"⟩, by decide⟩)

/-- C10. Catalog invariant: every family of `utlsDict` has exactly one sentinel
entry (key `-1`), and every other key of the family is non-negative. -/
theorem utlsDict_catalog_invariant (name : String) (versions : List (Int × String))
    (hfam : GoMap.index utlsDict name = some versions) :
    (GoMap.keys versions).count (-1) = 1 ∧
      ((versions.filter (fun kv => decide (kv.1 = -1))).length = 1) ∧
      ∀ k ∈ GoMap.keys versions, k ≠ -1 → 0 ≤ k := by
  have hmem := GoMap.index_mem utlsDict name versions hfam
  have hall : ∀ fam ∈ utlsDict,
      (GoMap.keys fam.2).count (-1) = 1 ∧
      ((fam.2.filter (fun kv => decide (kv.1 = -1))).length = 1) ∧
      ∀ k ∈ GoMap.keys fam.2, k ≠ -1 → 0 ≤ k := by decide
  exact hall (name, versions) hmem

/-- Witness for C10 on the Edge family, whose keys are `-1` and `85`. -/
theorem utlsDict_catalog_invariant_witness :
    GoMap.index utlsDict "Edge" = some [(-1, "85"), (85, "85")] ∧
      (GoMap.keys [((-1 : Int), "85"), (85, "85")]).count (-1) = 1 ∧
      (([((-1 : Int), "85"), (85, "85")].filter (fun kv => decide (kv.1 = -1))).length = 1) ∧
      ∀ k ∈ GoMap.keys [((-1 : Int), "85"), (85, "85")], k ≠ -1 → 0 ≤ k :=
  ⟨by decide, utlsDict_catalog_invariant "Edge" [(-1, "85"), (85, "85")] (by decide)⟩

/-! ## Lemmas: the supported-set queries -/

theorem foldl_append_family (dict : Catalog) (init : List String) :
    dict.foldl (fun browsers fam => browsers ++ [fam.1]) init = init ++ GoMap.keys dict := by
  induction dict generalizing init with
  | nil => simp [GoMap.keys]
  | cons fam rest ih =>
    rw [List.foldl_cons, ih]
    simp [GoMap.keys]

theorem foldl_append_version (versions : List (Int × String)) (init : List Int) :
    versions.foldl
        (fun versionList kv => if kv.1 ≠ -1 then versionList ++ [kv.1] else versionList) init =
      init ++ (GoMap.keys versions).filter (fun k => !decide (k = -1)) := by
  induction versions generalizing init with
  | nil => simp [GoMap.keys]
  | cons kv rest ih =>
    rw [List.foldl_cons, ih]
    by_cases hk : kv.1 = -1
    · simp [GoMap.keys, hk]
    · simp [GoMap.keys, hk]

theorem count_of_nodup {α : Type} [DecidableEq α] (l : List α) (hn : l.Nodup) (a : α) :
    l.count a = if a ∈ l then 1 else 0 := by
  by_cases ha : a ∈ l
  · rw [if_pos ha]
    exact List.count_eq_one_of_mem hn ha
  · rw [if_neg ha]
    exact List.count_eq_zero_of_not_mem ha

/-- On a catalog whose family names are pairwise distinct, as the keys of a Go
map are, `GetSupportedBrowsersIn` lists each family once and nothing else. -/
theorem GetSupportedBrowsersIn_count (dict : Catalog) (hn : (GoMap.keys dict).Nodup)
    (name : String) :
    (GetSupportedBrowsersIn dict).count name =
      if (GoMap.index dict name).isSome then 1 else 0 := by
  have hl : GetSupportedBrowsersIn dict = GoMap.keys dict := by
    simp [GetSupportedBrowsersIn, foldl_append_family]
  rw [hl, count_of_nodup _ hn]
  by_cases hmem : name ∈ GoMap.keys dict
  · obtain ⟨v, hv⟩ := GoMap.index_of_mem_keys dict name hmem
    simp [hmem, hv]
  · have := (GoMap.index_none_iff dict name).2 hmem
    simp [hmem, this]

/-- On a family whose keys are pairwise distinct, `GetSupportedVersionsIn` lists
each non-sentinel key once and nothing else. -/
theorem GetSupportedVersionsIn_count (dict : Catalog) (name : String)
    (versions : List (Int × String)) (hfam : GoMap.index dict name = some versions)
    (hn : (GoMap.keys versions).Nodup) :
    ∃ l, GetSupportedVersionsIn dict name = some l ∧
      ∀ k : Int, l.count k = if k ≠ -1 ∧ k ∈ GoMap.keys versions then 1 else 0 := by
  refine ⟨(GoMap.keys versions).filter (fun k => !decide (k = -1)), ?_, ?_⟩
  · simp only [GetSupportedVersionsIn, hfam]
    rw [foldl_append_version]
    rfl
  · intro k
    rw [count_of_nodup _ (hn.filter _)]
    by_cases hk : k = -1
    · simp [hk]
    · by_cases hmem : k ∈ GoMap.keys versions
      · simp [hk, hmem, List.mem_filter]
      · simp [hk, hmem, List.mem_filter]

theorem utlsDict_nodup :
    (GoMap.keys utlsDict).Nodup ∧ ∀ fam ∈ utlsDict, (GoMap.keys fam.2).Nodup := by decide

/-! ## The payload marker and the supported-set queries -/

/-- C11. Payload marker.  For a request that passes authentication and has an
effective User-Agent on which the resolver returns, the handler returns, and
the request it leaves in the proxy context (`ctx.Req`) carries under
`payloadKey` exactly the configured payload, chained onto the context of the old
`ctx.Req`; that stored request has the headers of the returned request, the
User-Agent override included. -/
theorem payload_marker (ext : Externals) (Flags : ProxySetup) (req : Request)
    (ctx : ProxyCtx) (ua : String) (resolved : Except ResolveError ClientHelloID)
    (hpass : PassesAuthentication Flags req ctx)
    (hua : effectiveUserAgent Flags req = some ua)
    (hres : ext.getClientHelloID ua = some resolved) :
    ∃ r, handleRequest ext Flags req ctx = some r ∧
      GoMap.index r.ctx.Req.Context payloadKey = some (.str Flags.Payload) ∧
      r.ctx.Req.Context = (payloadKey, .str Flags.Payload) :: ctx.Req.Context ∧
      r.ctx.Req.Header = r.req.Header ∧
      (Flags.UserAgent ≠ "" →
        HTTPHeader.values r.ctx.Req.Header "User-Agent" = [Flags.UserAgent]) ∧
      (Flags.UserAgent = "" → r.ctx.Req.Header = req.Header) := by
  obtain ⟨heq, hidx⟩ := handleRequest_of_effective ext Flags req ctx ua hpass hua
  obtain ⟨h1, h2, h3⟩ :=
    resolveAndBind_of_resolved ext Flags (effectiveRequest Flags req) ctx ua resolved hidx hres
  have hov : Flags.UserAgent ≠ "" →
      HTTPHeader.values (effectiveRequest Flags req).Header "User-Agent" = [Flags.UserAgent] := by
    intro h
    simp [effectiveRequest, h, HTTPHeader.values_set]
  have hno : Flags.UserAgent = "" → (effectiveRequest Flags req).Header = req.Header := by
    intro h
    simp [effectiveRequest, h]
  have hidxp : GoMap.index ((payloadKey, AnyValue.str Flags.Payload) :: ctx.Req.Context)
      payloadKey = some (.str Flags.Payload) := by
    simp [GoMap.index]
  by_cases hup : Flags.UpstreamProxy = ""
  · exact ⟨_, heq.trans (h1 hup), hidxp, rfl, rfl, hov, hno⟩
  · cases hp : ext.urlParse Flags.UpstreamProxy with
    | error e => exact ⟨_, heq.trans (h3 e hup hp), hidxp, rfl, rfl, hov, hno⟩
    | ok proxyUrl => exact ⟨_, heq.trans (h2 proxyUrl hup hp), hidxp, rfl, rfl, hov, hno⟩

/-- Witness for C11: with the payload `alert(1)` and the override
`Firefox/120.0`, the request left in the context carries the payload and the
overridden User-Agent. -/
theorem payload_marker_witness :
    PassesAuthentication { defaultSetup with Payload := "alert(1)", UserAgent := "Firefox/120.0" }
        (requestWithUserAgent ["curl/8.0"]) (freshCtx (requestWithUserAgent ["curl/8.0"])) ∧
      ∃ r,
        handleRequest sampleExternals
            { defaultSetup with Payload := "alert(1)", UserAgent := "Firefox/120.0" }
            (requestWithUserAgent ["curl/8.0"]) (freshCtx (requestWithUserAgent ["curl/8.0"])) =
          some r ∧
        GoMap.index r.ctx.Req.Context payloadKey = some (.str "alert(1)") ∧
        r.ctx.Req.Header = r.req.Header ∧
        HTTPHeader.values r.ctx.Req.Header "User-Agent" = ["Firefox/120.0"] := by
  obtain ⟨r, hr, hp, _, hh, hov, _⟩ :=
    payload_marker sampleExternals
      { defaultSetup with Payload := "alert(1)", UserAgent := "Firefox/120.0" }
      (requestWithUserAgent ["curl/8.0"]) (freshCtx (requestWithUserAgent ["curl/8.0"]))
      "Firefox/120.0" (.ok ⟨"Firefox", "120"⟩)
      (Or.inr ⟨by decide, by decide⟩) (by decide) (by decide)
  exact ⟨Or.inr ⟨by decide, by decide⟩, r, hr, hp, hh, hov (by decide)⟩

/-- C12. Supported-set queries.  `GetSupportedBrowsers` holds each family of
`utlsDict` exactly once and nothing else.  For a family of the catalog
`GetSupportedVersions` returns a non-nil list that holds each non-sentinel key
of the family exactly once and never `-1`; it is the empty non-nil list for
Android and Safari.  For a name that is not in the catalog it returns `nil`.
The same holds over every catalog whose family names, and whose keys within a
family, are pairwise distinct, in whatever order they are enumerated. -/
theorem supported_set_queries :
    (∀ name : String,
        GetSupportedBrowsers.count name =
          if (GoMap.index utlsDict name).isSome then 1 else 0) ∧
    (∀ (name : String) (versions : List (Int × String)),
        GoMap.index utlsDict name = some versions →
        ∃ l, GetSupportedVersions name = some l ∧ (-1 : Int) ∉ l ∧
          ∀ k : Int, l.count k = if k ≠ -1 ∧ k ∈ GoMap.keys versions then 1 else 0) ∧
    (GetSupportedVersions "Android" = some [] ∧ GetSupportedVersions "Safari" = some []) ∧
    (∀ name : String, GoMap.index utlsDict name = none → GetSupportedVersions name = none) ∧
    (∀ dict : Catalog, (GoMap.keys dict).Nodup → (∀ fam ∈ dict, (GoMap.keys fam.2).Nodup) →
      (∀ name : String,
        (GetSupportedBrowsersIn dict).count name =
          if (GoMap.index dict name).isSome then 1 else 0) ∧
      (∀ (name : String) (versions : List (Int × String)),
        GoMap.index dict name = some versions →
        ∃ l, GetSupportedVersionsIn dict name = some l ∧
          ∀ k : Int, l.count k = if k ≠ -1 ∧ k ∈ GoMap.keys versions then 1 else 0) ∧
      (∀ name : String, GoMap.index dict name = none →
        GetSupportedVersionsIn dict name = none)) := by
  have general : ∀ dict : Catalog, (GoMap.keys dict).Nodup →
      (∀ fam ∈ dict, (GoMap.keys fam.2).Nodup) →
      (∀ name : String,
        (GetSupportedBrowsersIn dict).count name =
          if (GoMap.index dict name).isSome then 1 else 0) ∧
      (∀ (name : String) (versions : List (Int × String)),
        GoMap.index dict name = some versions →
        ∃ l, GetSupportedVersionsIn dict name = some l ∧
          ∀ k : Int, l.count k = if k ≠ -1 ∧ k ∈ GoMap.keys versions then 1 else 0) ∧
      (∀ name : String, GoMap.index dict name = none →
        GetSupportedVersionsIn dict name = none) := by
    intro dict hn hfn
    refine ⟨GetSupportedBrowsersIn_count dict hn, ?_, ?_⟩
    · intro name versions hfam
      exact GetSupportedVersionsIn_count dict name versions hfam
        (hfn (name, versions) (GoMap.index_mem dict name versions hfam))
    · intro name hnone
      simp [GetSupportedVersionsIn, hnone]
  obtain ⟨g1, g2, g3⟩ := general utlsDict utlsDict_nodup.1 utlsDict_nodup.2
  refine ⟨g1, ?_, by decide, g3, general⟩
  intro name versions hfam
  obtain ⟨l, hl, hc⟩ := g2 name versions hfam
  refine ⟨l, hl, ?_, hc⟩
  intro hmem
  have := hc (-1)
  simp at this
  exact absurd hmem (List.count_eq_zero.mp this)

/-- Witness for C12: the Edge family has the keys `-1` and `85`, and
`GetSupportedVersions` returns `[85]`; `Opera` is not in the catalog. -/
theorem supported_set_queries_witness :
    GoMap.index utlsDict "Edge" = some [(-1, "85"), (85, "85")] ∧
      GetSupportedVersions "Edge" = some [85] ∧
      GetSupportedBrowsers.count "Edge" = 1 ∧
      GoMap.index utlsDict "Opera" = none ∧
      GetSupportedVersions "Opera" = none ∧
      ∃ l, GetSupportedVersions "Edge" = some l ∧ (-1 : Int) ∉ l ∧
        ∀ k : Int, l.count k =
          if k ≠ -1 ∧ k ∈ GoMap.keys [((-1 : Int), "85"), (85, "85")] then 1 else 0 :=
  ⟨by decide, by decide, by decide, by decide,
    supported_set_queries.2.2.2.1 "Opera" (by decide),
    supported_set_queries.2.1 "Edge" [(-1, "85"), (85, "85")] (by decide)⟩

/-! ## Lemmas: enumeration order -/

theorem GoMap.index_of_mem_nodup {κ ν : Type} [DecidableEq κ] (m : List (κ × ν)) (k : κ) (v : ν)
    (hn : (GoMap.keys m).Nodup) (hmem : (k, v) ∈ m) : GoMap.index m k = some v := by
  induction m with
  | nil => cases hmem
  | cons kv rest ih =>
    obtain ⟨k', v'⟩ := kv
    have hn' : k' ∉ GoMap.keys rest ∧ (GoMap.keys rest).Nodup := by
      simpa [GoMap.keys] using hn
    by_cases hk : k' = k
    · subst hk
      rcases List.mem_cons.mp hmem with h | h
      · cases h
        simp [GoMap.index]
      · exact absurd (List.mem_map_of_mem Prod.fst h) hn'.1
    · rcases List.mem_cons.mp hmem with h | h
      · cases h
        exact absurd rfl hk
      · simp only [GoMap.index, hk, if_false]
        exact ih hn'.2 h

/-- A map read does not depend on the order in which the entries of the map are
listed. -/
theorem GoMap.index_perm {κ ν : Type} [DecidableEq κ] (m₁ m₂ : List (κ × ν))
    (hp : m₁.Perm m₂) (hn : (GoMap.keys m₁).Nodup) (k : κ) :
    GoMap.index m₁ k = GoMap.index m₂ k := by
  have hkeys : (GoMap.keys m₁).Perm (GoMap.keys m₂) := hp.map Prod.fst
  have hn₂ : (GoMap.keys m₂).Nodup := hkeys.nodup_iff.mp hn
  cases h₁ : GoMap.index m₁ k with
  | none =>
    have hnot : k ∉ GoMap.keys m₂ := fun hmem =>
      (GoMap.index_none_iff m₁ k).1 h₁ (hkeys.mem_iff.mpr hmem)
    exact ((GoMap.index_none_iff m₂ k).2 hnot).symm
  | some v =>
    have hmem : (k, v) ∈ m₂ := hp.mem_iff.mp (GoMap.index_mem m₁ k v h₁)
    exact (GoMap.index_of_mem_nodup m₂ k v hn₂ hmem).symm

/-- The selection loop ends on the same key whatever the order of the visit. -/
theorem selectVersion_perm (m : Int) (keys₁ keys₂ : List Int) (hp : keys₁.Perm keys₂) :
    selectVersion m keys₁ = selectVersion m keys₂ := by
  obtain ⟨a₁, b₁⟩ := selectVersion_spec m keys₁
  obtain ⟨a₂, b₂⟩ := selectVersion_spec m keys₂
  rcases a₁ with e₁ | ⟨mem₁, le₁, gt₁⟩
  · rcases a₂ with e₂ | ⟨mem₂, le₂, gt₂⟩
    · rw [e₁, e₂]
    · have := b₁ _ (hp.mem_iff.mpr mem₂) le₂
      omega
  · rcases a₂ with e₂ | ⟨mem₂, le₂, gt₂⟩
    · have := b₂ _ (hp.mem_iff.mp mem₁) le₁
      omega
    · have h₁ := b₁ _ (hp.mem_iff.mpr mem₂) le₂
      have h₂ := b₂ _ (hp.mem_iff.mp mem₁) le₁
      omega

/-- The result of `utlsVersionIn` depends on the family only up to the order of
its entries. -/
theorem utlsVersionIn_perm (dict₁ dict₂ : Catalog) (name version : String)
    (versions₁ versions₂ : List (Int × String))
    (h₁ : GoMap.index dict₁ name = some versions₁)
    (h₂ : GoMap.index dict₂ name = some versions₂)
    (hp : versions₁.Perm versions₂) (hn : (GoMap.keys versions₁).Nodup) :
    utlsVersionIn dict₁ name version = utlsVersionIn dict₂ name version := by
  have hsel : ∀ m, selectVersion m (GoMap.keys versions₁) =
      selectVersion m (GoMap.keys versions₂) :=
    fun m => selectVersion_perm m _ _ (hp.map Prod.fst)
  simp only [utlsVersionIn, h₁, h₂, Split_index_zero]
  cases Atoi (textBefore '.' version) with
  | error err => rfl
  | ok m =>
    simp only
    rw [hsel m, GoMap.index_perm versions₁ versions₂ hp hn]

theorem validateProxyAuth_not_basic (req : Request) (u p : String)
    (hcfg : ¬(u = "" ∧ p = ""))
    (hpre : HasPrefix (HTTPHeader.Get req.Header "Proxy-Authorization") "Basic " = false) :
    validateProxyAuth req u p = some false := by
  unfold validateProxyAuth
  simp only [hcfg, if_false, hpre, if_true]
  split <;> rfl

theorem utlsDict_sentinel_latest :
    ∀ fam ∈ utlsDict, ∀ k ∈ GoMap.keys fam.2, k ≠ -1 →
      (∀ k' ∈ GoMap.keys fam.2, k' ≠ -1 → k' ≤ k) →
      GoMap.index fam.2 (-1) = GoMap.index fam.2 k := by decide

/-! ## Implicit properties of the resolver and of the gate -/

/-- C14. The sentinel default is the latest supported signature.  In every
family of `utlsDict` the token under `-1` is the token under the largest
non-sentinel key, when there is one.  So a major version below every
non-sentinel key of the family and a major version at or above every key
resolve to the same token, the sentinel's; Chrome `10` resolves like Chrome
`99999`. -/
theorem sentinel_is_latest :
    (∀ (name : String) (versions : List (Int × String)),
        GoMap.index utlsDict name = some versions →
        ∀ k ∈ GoMap.keys versions, k ≠ -1 →
          (∀ k' ∈ GoMap.keys versions, k' ≠ -1 → k' ≤ k) →
          GoMap.index versions (-1) = GoMap.index versions k) ∧
    (∀ (name v₁ v₂ : String) (versions : List (Int × String)) (m₁ m₂ : Int),
        GoMap.index utlsDict name = some versions →
        Atoi (textBefore '.' v₁) = .ok m₁ → Atoi (textBefore '.' v₂) = .ok m₂ →
        (∀ k ∈ GoMap.keys versions, k ≠ -1 → m₁ < k) →
        (∀ k ∈ GoMap.keys versions, k ≤ m₂) →
        ∃ tok, GoMap.index versions (-1) = some tok ∧
          utlsVersion name v₁ = some (.ok tok) ∧ utlsVersion name v₂ = some (.ok tok)) ∧
    (utlsVersion "Chrome" "10" = some (.ok "133") ∧
      utlsVersion "Chrome" "99999" = some (.ok "133")) := by
  have first : ∀ (name : String) (versions : List (Int × String)),
      GoMap.index utlsDict name = some versions →
      ∀ k ∈ GoMap.keys versions, k ≠ -1 →
        (∀ k' ∈ GoMap.keys versions, k' ≠ -1 → k' ≤ k) →
        GoMap.index versions (-1) = GoMap.index versions k := by
    intro name versions hfam
    exact utlsDict_sentinel_latest (name, versions) (GoMap.index_mem utlsDict name versions hfam)
  refine ⟨first, ?_, by decide⟩
  intro name v₁ v₂ versions m₁ m₂ hfam h₁ h₂ hlow hhigh
  obtain ⟨k₁, tok₁, f₁, i₁, r₁⟩ :=
    utlsVersionIn_floor utlsDict utlsDict_invariant name v₁ versions m₁ hfam h₁
  obtain ⟨k₂, tok₂, f₂, i₂, r₂⟩ :=
    utlsVersionIn_floor utlsDict utlsDict_invariant name v₂ versions m₂ hfam h₂
  have hk₁ : k₁ = -1 := by
    rcases f₁ with ⟨hmem, hne, hle, _⟩ | ⟨h, _⟩
    · have := hlow k₁ hmem hne
      omega
    · exact h
  rw [hk₁] at i₁
  have htok : GoMap.index versions (-1) = GoMap.index versions k₂ := by
    rcases f₂ with ⟨hmem, hne, _, hmax⟩ | ⟨h, _⟩
    · exact first name versions hfam k₂ hmem hne
        (fun k' hk' hne' => hmax k' hk' hne' (hhigh k' hk'))
    · rw [h]
  have : tok₂ = tok₁ := by
    rw [htok, i₂] at i₁
    exact Option.some.inj i₁
  subst this
  exact ⟨tok₂, i₁, r₁, r₂⟩

/-- Witness for C14 on the iOS family: version `9.3` lies below every key,
version `17.2` above every key, and both resolve to the sentinel token `14`. -/
theorem sentinel_is_latest_witness :
    GoMap.index utlsDict "iOS" =
        some [(-1, "14"), (11, "111"), (12, "12.1"), (13, "13"), (14, "14")] ∧
      utlsVersion "iOS" "9.3" = some (.ok "14") ∧
      utlsVersion "iOS" "17.2" = some (.ok "14") ∧
      ∃ tok,
        GoMap.index [((-1 : Int), "14"), (11, "111"), (12, "12.1"), (13, "13"), (14, "14")]
          (-1) = some tok ∧
        utlsVersion "iOS" "9.3" = some (.ok tok) ∧ utlsVersion "iOS" "17.2" = some (.ok tok) :=
  ⟨by decide, by decide, by decide,
    sentinel_is_latest.2.1 "iOS" "9.3" "17.2"
      [(-1, "14"), (11, "111"), (12, "12.1"), (13, "13"), (14, "14")] 9 17
      (by decide) (by decide) (by decide) (by decide) (by decide)⟩

/-- C16. A configured username that contains `:` is never authenticated:
`validateProxyAuth` returns false on every request and for every password.
The reason is that the first piece of the decoded credentials, split at the
first `:`, never contains `:`. -/
theorem colon_username_never_authenticates (req : Request) (username password : String)
    (hcolon : ':' ∈ username.data) :
    validateProxyAuth req username password = some false ∧
      ∀ (credentials user : String), (SplitN2 credentials ':')[0]? = some user →
        ':' ∉ user.data ∧ user ≠ username := by
  have hcfg : ¬(username = "" ∧ password = "") := by
    rintro ⟨hu, _⟩
    rw [hu] at hcolon
    cases hcolon
  refine ⟨?_, ?_⟩
  · by_cases hpre : HasPrefix (HTTPHeader.Get req.Header "Proxy-Authorization") "Basic " = true
    · obtain ⟨enc, henc⟩ := (HasPrefix_iff _ _).1 hpre
      obtain ⟨herr, hok⟩ := validateProxyAuth_basic req username password enc hcfg henc
      cases hd : DecodeString enc with
      | error e => exact herr e hd
      | ok creds =>
        rw [hok creds hd]
        have : ¬(':' ∉ username.data ∧ creds = username ++ ":" ++ password) :=
          fun h => h.1 hcolon
        simp only [this, decide_False]
    · have hpre' : HasPrefix (HTTPHeader.Get req.Header "Proxy-Authorization") "Basic " =
          false := by
        simpa using hpre
      exact validateProxyAuth_not_basic req username password hcfg hpre'
  · intro credentials user huser
    have hfirst : ':' ∉ user.data := by
      rcases SplitN2_cases credentials ':' with ⟨h1, h2⟩ | ⟨a, b, h2, _, h4⟩
      · rw [h2] at huser
        simp at huser
        rw [← huser]
        exact h1
      · rw [h2] at huser
        simp at huser
        rw [← huser]
        exact h4
    refine ⟨hfirst, ?_⟩
    intro h
    rw [h] at hfirst
    exact hfirst hcolon

/-- Witness for C16: the username `a:b` with password `c` is rejected on the
header whose payload decodes to `a:b:c`. -/
theorem colon_username_never_authenticates_witness :
    ':' ∈ ("a:b" : String).data ∧
      DecodeString "YTpiOmM=" = .ok "a:b:c" ∧
      validateProxyAuth (requestWithProxyAuth ["Basic YTpiOmM="]) "a:b" "c" = some false :=
  ⟨by decide, by decide,
    (colon_username_never_authenticates (requestWithProxyAuth ["Basic YTpiOmM="]) "a:b" "c"
      (by decide)).1⟩

/-- C17. `utlsVersion` is deterministic with respect to the enumeration order of
the map.  The selection loop ends on the same key for any two orders of the same
keys; `utlsVersionIn` returns the same result on any two listings of the same
family; and on every listing of a family of `utlsDict` it returns what
`utlsVersion` returns. -/
theorem selection_order_independent :
    (∀ (m : Int) (keys₁ keys₂ : List Int), keys₁.Perm keys₂ →
        selectVersion m keys₁ = selectVersion m keys₂) ∧
    (∀ (m : Int) (versions₁ versions₂ : List (Int × String)),
        versions₁.Perm versions₂ → (GoMap.keys versions₁).Nodup →
        selectVersion m (GoMap.keys versions₁) = selectVersion m (GoMap.keys versions₂) ∧
        GoMap.index versions₁ (selectVersion m (GoMap.keys versions₁)) =
          GoMap.index versions₂ (selectVersion m (GoMap.keys versions₂))) ∧
    (∀ (dict₁ dict₂ : Catalog) (name version : String)
        (versions₁ versions₂ : List (Int × String)),
        GoMap.index dict₁ name = some versions₁ → GoMap.index dict₂ name = some versions₂ →
        versions₁.Perm versions₂ → (GoMap.keys versions₁).Nodup →
        utlsVersionIn dict₁ name version = utlsVersionIn dict₂ name version) ∧
    (∀ (name version : String) (versions order : List (Int × String)),
        GoMap.index utlsDict name = some versions → order.Perm versions →
        utlsVersionIn [(name, order)] name version = utlsVersion name version) := by
  refine ⟨selectVersion_perm, ?_, utlsVersionIn_perm, ?_⟩
  · intro m versions₁ versions₂ hp hn
    have hsel : selectVersion m (GoMap.keys versions₁) =
        selectVersion m (GoMap.keys versions₂) :=
      selectVersion_perm m _ _ (hp.map Prod.fst)
    refine ⟨hsel, ?_⟩
    rw [hsel]
    exact GoMap.index_perm versions₁ versions₂ hp hn _
  · intro name version versions order hfam hp
    have hn : (GoMap.keys versions).Nodup :=
      utlsDict_nodup.2 (name, versions) (GoMap.index_mem utlsDict name versions hfam)
    have hn' : (GoMap.keys order).Nodup :=
      ((hp.map Prod.fst : (GoMap.keys order).Perm (GoMap.keys versions)).nodup_iff).mpr hn
    exact utlsVersionIn_perm [(name, order)] utlsDict name version order versions
      (by simp [GoMap.index]) hfam hp hn'

/-- Witness for C17: the Edge family listed as `85, -1` instead of `-1, 85`
gives the same selected key and the same token for major version `90`. -/
theorem selection_order_independent_witness :
    ([((85 : Int), "85"), (-1, "85")] : List (Int × String)).Perm [(-1, "85"), (85, "85")] ∧
      selectVersion 90 [85, -1] = 85 ∧ selectVersion 90 [-1, 85] = 85 ∧
      utlsVersionIn [("Edge", [(85, "85"), (-1, "85")])] "Edge" "90.0" =
        utlsVersion "Edge" "90.0" :=
  ⟨List.Perm.swap _ _ _, by decide, by decide,
    selection_order_independent.2.2.2 "Edge" "90.0" [(-1, "85"), (85, "85")]
      [(85, "85"), (-1, "85")] (by decide) (List.Perm.swap _ _ _)⟩

/-! ## Lemmas: map writes and handler returns -/

theorem GoMap.index_set_self {κ ν : Type} [DecidableEq κ] (m : List (κ × ν)) (k : κ) (v : ν) :
    GoMap.index (GoMap.set m k v) k = some v := by
  simp [GoMap.set, GoMap.index]

theorem GoMap.index_filter_ne {κ ν : Type} [DecidableEq κ] (m : List (κ × ν)) (k id : κ)
    (h : id ≠ k) :
    GoMap.index (m.filter (fun kv => !decide (kv.1 = k))) id = GoMap.index m id := by
  induction m with
  | nil => rfl
  | cons kv rest ih =>
    obtain ⟨k', v'⟩ := kv
    by_cases hk : k' = k
    · have hne : ¬ k' = id := fun e => h (e.symm.trans hk)
      have hf : List.filter (fun kv => !decide (kv.1 = k)) ((k', v') :: rest) =
          List.filter (fun kv => !decide (kv.1 = k)) rest := by
        simp [List.filter_cons, hk]
      rw [hf, ih]
      simp only [GoMap.index, hne, if_false]
    · have hf : List.filter (fun kv => !decide (kv.1 = k)) ((k', v') :: rest) =
          (k', v') :: List.filter (fun kv => !decide (kv.1 = k)) rest := by
        simp [List.filter_cons, hk]
      rw [hf]
      by_cases hid : k' = id
      · simp only [GoMap.index, hid, if_true]
      · simp only [GoMap.index, hid, if_false]
        exact ih

theorem GoMap.index_set_ne {κ ν : Type} [DecidableEq κ] (m : List (κ × ν)) (k id : κ) (v : ν)
    (h : id ≠ k) : GoMap.index (GoMap.set m k v) id = GoMap.index m id := by
  have hk : ¬ k = id := fun e => h e.symm
  simp only [GoMap.set, GoMap.index, hk, if_false]
  exact GoMap.index_filter_ne m k id h

theorem GoMap.keys_set {κ ν : Type} [DecidableEq κ] (m : List (κ × ν)) (k : κ) (v : ν) :
    GoMap.keys (GoMap.set m k v) = k :: (GoMap.keys m).filter (fun x => !decide (x = k)) := by
  simp only [GoMap.keys, GoMap.set, List.map_cons]
  congr 1
  induction m with
  | nil => rfl
  | cons kv rest ih =>
    by_cases hk : kv.1 = k
    · simp [List.filter_cons, hk, ih]
    · simp [List.filter_cons, hk, ih]

theorem GoMap.count_keys_set {κ ν : Type} [DecidableEq κ] (m : List (κ × ν)) (k : κ) (v : ν) :
    (GoMap.keys (GoMap.set m k v)).count k = 1 := by
  rw [GoMap.keys_set]
  have : k ∉ (GoMap.keys m).filter (fun x => !decide (x = k)) := by
    simp [List.mem_filter]
  simp [List.count_cons, List.count_eq_zero_of_not_mem this]

theorem GoMap.nodup_keys_set {κ ν : Type} [DecidableEq κ] (m : List (κ × ν)) (k : κ) (v : ν)
    (hn : (GoMap.keys m).Nodup) : (GoMap.keys (GoMap.set m k v)).Nodup := by
  rw [GoMap.keys_set]
  refine List.nodup_cons.mpr ⟨?_, hn.filter _⟩
  simp [List.mem_filter]

theorem length_filter_lt_of_mem {α : Type} (p : α → Bool) (l : List α) (x : α)
    (hx : x ∈ l) (hp : p x = false) : (l.filter p).length < l.length := by
  induction l with
  | nil => cases hx
  | cons y ys ih =>
    rcases List.mem_cons.mp hx with h | h
    · subst h
      have := List.length_filter_le p ys
      simp only [List.filter_cons, hp, List.length_cons]
      simp only [Bool.false_eq_true, if_false]
      omega
    · have := ih h
      by_cases hy : p y = true
      · simp only [List.filter_cons, hy, if_true, List.length_cons]
        omega
      · simp only [List.filter_cons, hy, List.length_cons]
        simp only [Bool.false_eq_true, if_false]
        omega

/-- Once step 1 has passed, the handler returns unless the resolver does not. -/
theorem handleRequest_returns (ext : Externals) (Flags : ProxySetup) (req : Request)
    (ctx : ProxyCtx) (hpass : PassesAuthentication Flags req ctx) :
    (effectiveUserAgent Flags req = none → ∃ r, handleRequest ext Flags req ctx = some r) ∧
      (∀ ua, effectiveUserAgent Flags req = some ua → ext.getClientHelloID ua ≠ none →
        ∃ r, handleRequest ext Flags req ctx = some r) := by
  refine ⟨?_, ?_⟩
  · intro hnone
    rw [handleRequest_of_passes ext Flags req ctx hpass]
    have hov : Flags.UserAgent = "" := by
      by_contra hne
      simp [effectiveUserAgent, hne] at hnone
    have hlen : (HTTPHeader.values req.Header "User-Agent").length = 0 := by
      have : (HTTPHeader.values req.Header "User-Agent")[0]? = none := by
        simpa [effectiveUserAgent, hov] using hnone
      cases hv : HTTPHeader.values req.Header "User-Agent" with
      | nil => rfl
      | cons v vs => rw [hv] at this; simp at this
    simp [hov, hlen]
  · intro ua hua hres
    obtain ⟨heq, hidx⟩ := handleRequest_of_effective ext Flags req ctx ua hpass hua
    rw [heq]
    cases hr : ext.getClientHelloID ua with
    | none => exact absurd hr hres
    | some resolved =>
      obtain ⟨h1, h2, h3⟩ :=
        resolveAndBind_of_resolved ext Flags (effectiveRequest Flags req) ctx ua resolved hidx hr
      by_cases hup : Flags.UpstreamProxy = ""
      · exact ⟨_, h1 hup⟩
      · cases hp : ext.urlParse Flags.UpstreamProxy with
        | error err => exact ⟨_, h3 err hup hp⟩
        | ok proxyUrl => exact ⟨_, h2 proxyUrl hup hp⟩

/-! ## Safety of indexing and slicing -/

/-- C18. No index or slice of the core goes out of range.  `validateProxyAuth`
always returns a boolean, and its slice `authHeader[6:]`, taken only after
`HasPrefix authHeader "Basic "`, is then within the header, which has at least
6 characters.  `strings.Split(browserVersion, ".")` always has a first piece, and
`utlsVersionIn` never panics.  In the request handler the read of
`req.Header["User-Agent"][0]` finds a value in the override branch and in the
branch without override; the handler can only fail to return through the type
assertion on `UserData` or inside the resolver. -/
theorem no_index_out_of_range :
    (∀ (req : Request) (username password : String),
        ∃ b, validateProxyAuth req username password = some b) ∧
    (∀ authHeader : String, HasPrefix authHeader "Basic " = true →
        6 ≤ authHeader.data.length ∧ ∃ encoded, sliceFrom authHeader 6 = some encoded) ∧
    (∀ browserVersion : String, ∃ first, (Split browserVersion '.')[0]? = some first) ∧
    (∀ (dict : Catalog) (browserName browserVersion : String),
        utlsVersionIn dict browserName browserVersion ≠ none) ∧
    (∀ (Flags : ProxySetup) (req : Request), Flags.UserAgent ≠ "" →
        (HTTPHeader.values (GoMap.set req.Header "User-Agent" [Flags.UserAgent])
          "User-Agent")[0]? = some Flags.UserAgent) ∧
    (∀ req : Request, (HTTPHeader.values req.Header "User-Agent").length ≠ 0 →
        ∃ ua, (HTTPHeader.values req.Header "User-Agent")[0]? = some ua) ∧
    (∀ (ext : Externals) (Flags : ProxySetup) (req : Request) (ctx : ProxyCtx),
        handleRequest ext Flags req ctx = none →
        isAuthenticated ctx = none ∨
          ∃ ua, effectiveUserAgent Flags req = some ua ∧ ext.getClientHelloID ua = none) := by
  refine ⟨validateProxyAuth_total, ?_, ?_, ?_, ?_, ?_, ?_⟩
  · intro authHeader hpre
    obtain ⟨t, ht⟩ := (HasPrefix_iff _ _).1 hpre
    have hlen : 6 ≤ authHeader.data.length := by
      rw [ht]
      simp [String.data_append]
    exact ⟨hlen, by simp only [sliceFrom, hlen, if_true]; exact ⟨_, rfl⟩⟩
  · intro browserVersion
    exact ⟨_, Split_index_zero browserVersion '.'⟩
  · intro dict browserName browserVersion
    simp only [utlsVersionIn, Split_index_zero]
    cases GoMap.index dict browserName with
    | none => simp
    | some versions =>
      simp only
      cases Atoi (textBefore '.' browserVersion) with
      | error err => simp
      | ok m =>
        simp only
        cases GoMap.index versions (selectVersion m (GoMap.keys versions)) <;> simp
  · intro Flags req _
    simp [HTTPHeader.values_set]
  · intro req hlen
    cases hv : HTTPHeader.values req.Header "User-Agent" with
    | nil => rw [hv] at hlen; exact absurd rfl hlen
    | cons v vs => exact ⟨v, by simp⟩
  · intro ext Flags req ctx hnone
    cases hi : isAuthenticated ctx with
    | none => exact Or.inl rfl
    | some auth =>
      right
      obtain ⟨b, hb⟩ := validateProxyAuth_total req Flags.Username Flags.Password
      have hpass : PassesAuthentication Flags req ctx := by
        cases auth with
        | true => exact Or.inl hi
        | false =>
          cases b with
          | true => exact Or.inr ⟨hi, hb⟩
          | false =>
            have : handleRequest ext Flags req ctx =
                some { req := req, resp := some (proxyAuthRequiredResponse req), ctx := ctx } := by
              simp [handleRequest, hi, hb]
            rw [this] at hnone
            cases hnone
      obtain ⟨r1, r2⟩ := handleRequest_returns ext Flags req ctx hpass
      cases heff : effectiveUserAgent Flags req with
      | none =>
        obtain ⟨r, hr⟩ := r1 heff
        rw [hr] at hnone
        cases hnone
      | some ua =>
        refine ⟨ua, rfl, ?_⟩
        by_contra hres
        obtain ⟨r, hr⟩ := r2 ua heff hres
        rw [hr] at hnone
        cases hnone

/-- Witness for C18: the header `Basic` alone has 5 characters, fails the prefix
test and is rejected without any slice; the header `Basic x` passes it and its
slice from 6 is `x`; the version `""` splits into one empty piece. -/
theorem no_index_out_of_range_witness :
    HasPrefix "Basic" "Basic " = false ∧
      validateProxyAuth (requestWithProxyAuth ["Basic"]) "user" "pass" = some false ∧
      HasPrefix "Basic x" "Basic " = true ∧
      (6 ≤ ("Basic x" : String).data.length ∧ ∃ encoded, sliceFrom "Basic x" 6 = some encoded) ∧
      sliceFrom "Basic x" 6 = some "x" ∧
      (Split "" '.')[0]? = some "" :=
  ⟨by decide, by decide, by decide, no_index_out_of_range.2.1 "Basic x" (by decide),
    by decide, by decide⟩

/-! ## The instance registry -/

/-- C13, as stated, fails: in a fresh process, start an instance with id `a`,
then a second one with the same id.  The second start does not fail; the entry
of `a` now holds the second instance, and neither before nor after it has the
cancel function of the first instance been invoked or its server been stopped. -/
theorem duplicate_start_leaks_first :
    GoMap.index afterFirstStart.proxyInstanceMap "a" = some firstInstance ∧
      ¬ Released afterFirstStart firstInstance ∧
      GoMap.index afterSecondStart.proxyInstanceMap "a" =
        some { Server := (initServer secondSetup afterFirstStart).1, Cancel := { ctxId := 1 } } ∧
      (initServer secondSetup afterFirstStart).1.Addr = ":9090" ∧
      GoMap.index afterSecondStart.proxyInstanceMap "a" ≠ some firstInstance ∧
      ¬ Released afterSecondStart firstInstance ∧
      ¬ (∀ (g : Globals) (Flags : ProxySetup) (first : ProxyInstance),
          GoMap.index g.proxyInstanceMap Flags.Id = some first → ¬ Released g first →
          GoMap.index (initServer Flags g).2.proxyInstanceMap Flags.Id = some first ∨
            Released (initServer Flags g).2 first) := by
  have h1 : GoMap.index afterFirstStart.proxyInstanceMap "a" = some firstInstance := by decide
  have h2 : ¬ Released afterFirstStart firstInstance := by decide
  have h3 : GoMap.index afterSecondStart.proxyInstanceMap "a" ≠ some firstInstance := by decide
  have h4 : ¬ Released afterSecondStart firstInstance := by decide
  refine ⟨h1, h2, by decide, by decide, h3, h4, ?_⟩
  intro hall
  rcases hall afterFirstStart secondSetup firstInstance h1 h2 with h | h
  · exact h3 h
  · exact h4 h

/-- C13, amended.  Starting an instance under an id that is already registered
does not fail: it replaces the entry of that id by the new instance at once,
without releasing the instance that was registered (no cancel function is
invoked and no server is stopped by the start); the registry then holds exactly
one entry for the id and has not grown, and the entries of the other ids are
unchanged. -/
theorem duplicate_start_replaces (Flags : ProxySetup) (g : Globals) (first : ProxyInstance)
    (hlive : GoMap.index g.proxyInstanceMap Flags.Id = some first) :
    GoMap.index (initServer Flags g).2.proxyInstanceMap Flags.Id =
        some { Server := (initServer Flags g).1, Cancel := { ctxId := g.contexts } } ∧
      (Released (initServer Flags g).2 first ↔ Released g first) ∧
      (∀ inst : ProxyInstance, Released (initServer Flags g).2 inst ↔ Released g inst) ∧
      (GoMap.keys (initServer Flags g).2.proxyInstanceMap).count Flags.Id = 1 ∧
      (initServer Flags g).2.proxyInstanceMap.length ≤ g.proxyInstanceMap.length ∧
      (∀ id, id ≠ Flags.Id →
        GoMap.index (initServer Flags g).2.proxyInstanceMap id =
          GoMap.index g.proxyInstanceMap id) := by
  have hrel : ∀ inst : ProxyInstance, Released (initServer Flags g).2 inst ↔ Released g inst := by
    intro inst
    simp [Released, initServer]
  refine ⟨?_, hrel first, hrel, ?_, ?_, ?_⟩
  · exact GoMap.index_set_self _ _ _
  · exact GoMap.count_keys_set _ _ _
  · have hmem := GoMap.index_mem g.proxyInstanceMap Flags.Id first hlive
    have hlt := length_filter_lt_of_mem (fun kv => !decide (kv.1 = Flags.Id))
      g.proxyInstanceMap (Flags.Id, first) hmem (by simp)
    simp only [initServer, GoMap.set, List.length_cons]
    omega
  · intro id hid
    exact GoMap.index_set_ne _ _ _ _ hid

/-- Witness for C13: the second start of id `a` in the sample run. -/
theorem duplicate_start_replaces_witness :
    GoMap.index afterFirstStart.proxyInstanceMap secondSetup.Id = some firstInstance ∧
      GoMap.index (initServer secondSetup afterFirstStart).2.proxyInstanceMap secondSetup.Id =
        some { Server := (initServer secondSetup afterFirstStart).1,
               Cancel := { ctxId := afterFirstStart.contexts } } ∧
      (Released (initServer secondSetup afterFirstStart).2 firstInstance ↔
        Released afterFirstStart firstInstance) :=
  ⟨by decide,
    (duplicate_start_replaces secondSetup afterFirstStart firstInstance (by decide)).1,
    (duplicate_start_replaces secondSetup afterFirstStart firstInstance (by decide)).2.1⟩

/-- C15. `initServer` registers the new instance under `Flags.Id` and leaves the
rest of the registry alone.  After the call the registry is the old one with the
key `Flags.Id` bound to an instance whose server is the returned one, with
address `Flags.Addr ++ ":" ++ Flags.Port`; every entry under another id is
unchanged; the id has exactly one entry, and a registry with one entry per id
stays so.  `Config` is unchanged and the only call made outside the registry is
the one to the CA loader. -/
theorem initServer_registers (Flags : ProxySetup) (g : Globals) :
    ∃ inst : ProxyInstance,
      (initServer Flags g).2.proxyInstanceMap = GoMap.set g.proxyInstanceMap Flags.Id inst ∧
      GoMap.index (initServer Flags g).2.proxyInstanceMap Flags.Id = some inst ∧
      inst.Server = (initServer Flags g).1 ∧
      inst.Server.Addr = Flags.Addr ++ ":" ++ Flags.Port ∧
      (∀ id, id ≠ Flags.Id →
        GoMap.index (initServer Flags g).2.proxyInstanceMap id =
          GoMap.index g.proxyInstanceMap id) ∧
      (GoMap.keys (initServer Flags g).2.proxyInstanceMap).count Flags.Id = 1 ∧
      ((GoMap.keys g.proxyInstanceMap).Nodup →
        (GoMap.keys (initServer Flags g).2.proxyInstanceMap).Nodup) ∧
      (initServer Flags g).2.Config = g.Config ∧
      (initServer Flags g).2.effects = g.effects ++ [Effect.loadCA] := by
  refine ⟨{ Server := (initServer Flags g).1, Cancel := { ctxId := g.contexts } },
    rfl, GoMap.index_set_self _ _ _, rfl, rfl, ?_, GoMap.count_keys_set _ _ _, ?_, rfl, rfl⟩
  · intro id hid
    exact GoMap.index_set_ne _ _ _ _ hid
  · intro hn
    exact GoMap.nodup_keys_set _ _ _ hn

/-- Witness for C15: starting id `b` on port 9090 after id `a` leaves the entry
of `a` in place and binds `b` to a server at `:9090`. -/
theorem initServer_registers_witness :
    GoMap.index
        (initServer { defaultSetup with Id := "b", Port := "9090" } afterFirstStart).2.proxyInstanceMap
        "a" = some firstInstance ∧
      (initServer { defaultSetup with Id := "b", Port := "9090" } afterFirstStart).1.Addr =
        ":9090" ∧
      ∃ inst : ProxyInstance,
        GoMap.index
          (initServer { defaultSetup with Id := "b", Port := "9090" }
            afterFirstStart).2.proxyInstanceMap "b" = some inst ∧
        inst.Server.Addr = ":9090" := by
  obtain ⟨inst, _, h2, _, h4, _⟩ :=
    initServer_registers { defaultSetup with Id := "b", Port := "9090" } afterFirstStart
  exact ⟨by decide, by decide, inst, h2, h4⟩

end Hazetunnel
